import Mathlib

/-!
Verification of the `historic_server` retrieval engine (GOES bulk-retrieval
service) against its natural-language specification.

Python strings are modelled as lists of characters (`Str`); Python
`str.find`, slicing, `in`, and `int()` digit parsing are embedded as
executable functions on `List Char`.  Fallible Python code is modelled with
`Option`/`Except`.  Each claim theorem is stated over these embeddings.
-/

abbrev Str := List Char

/-- Python substring test at position 0: `pat` is a leading segment of `s`. -/
def leadsWith : Str → Str → Bool
  | [], _ => true
  | _ :: _, [] => false
  | p :: ps, c :: cs => p = c && leadsWith ps cs

/-- Python `s.find(pat)`: index of the first occurrence of `pat` in `s`,
`none` when absent (Python returns `-1`). -/
def findSubIdx (pat : Str) : Str → Option Nat
  | [] => if pat = [] then some 0 else none
  | c :: rest =>
    if leadsWith pat (c :: rest) then some 0
    else (findSubIdx pat rest).map (· + 1)

/-- Python `s.split(sep)[0]` for nonempty `sep`: the part before the first
occurrence of `sep` (all of `s` when `sep` is absent). -/
def upToSub (sep s : Str) : Str :=
  match findSubIdx sep s with
  | some i => s.take i
  | none => s

/-- The part of `s` after the first occurrence of `sep`; `none` when `sep`
does not occur. -/
def afterFirstSub (sep s : Str) : Option Str :=
  (findSubIdx sep s).map (fun i => s.drop (i + sep.length))

def digitVal (c : Char) : Nat := c.toNat - '0'.toNat

/-- Python `int(s)` on the digit strings the engine slices from filenames.
Python's `int` additionally tolerates signs, surrounding spaces and digit
grouping underscores; those forms never pass the numeric window tests the
engine applies afterwards, so the digits-only parse is used throughout. -/
def parseNatDigits (s : Str) : Option Nat :=
  if s.length ≠ 0 ∧ s.all (fun c => c.isDigit) then
    some (s.foldl (fun a c => a * 10 + digitVal c) 0)
  else none

/-- Python string comparison `a <= b`: lexicographic by code point. -/
def pyStrLe : Str → Str → Bool
  | [], _ => true
  | _ :: _, [] => false
  | a :: as, b :: bs =>
    if a.toNat < b.toNat then true
    else if b.toNat < a.toNat then false
    else pyStrLe as bs

/-- Python `s.upper()` (the catalog values are ASCII). -/
def strUpper (s : Str) : Str := s.map Char.toUpper

def natToStr (n : Nat) : Str := Nat.toDigits 10 n

/-- Python `f"{n:02d}"`. -/
def pad2 (n : Nat) : Str :=
  List.replicate (2 - (natToStr n).length) '0' ++ natToStr n

/-- Python `f"{n:03d}"`. -/
def pad3 (n : Nat) : Str :=
  List.replicate (3 - (natToStr n).length) '0' ++ natToStr n

/-- Python `f"{n:04d}"`. -/
def pad4 (n : Nat) : Str :=
  List.replicate (4 - (natToStr n).length) '0' ++ natToStr n

namespace SatelliteConfigGOES

/-- `config.py`: `VALID_BANDAS = [f"{i:02d}" for i in range(1, 17)]`. -/
def VALID_BANDAS : List Str := (List.range 16).map (fun i => pad2 (i + 1))

/-- `config.py`: the valid product list. -/
def VALID_PRODUCTS : List Str :=
  ["ADP", "AOD", "ACM", "CMIP", "CODD", "CODN", "CPSD", "CPSN",
   "ACHA", "ACTP", "CTP", "ACHT", "Rainfall", "SST", "TPW",
   "DMW", "DMWV", "LST", "AVIATION_FOG", "VAA"].map String.toList

/-- `config.py` `validate_bandas`: empty input is returned unchanged; a list
containing the token `ALL` is collapsed to `["ALL"]` with no further check;
otherwise any element outside `VALID_BANDAS` raises `ValueError` (modelled
as `Except.error` carrying the invalid elements). -/
def validate_bandas (bandas : List Str) : Except (List Str) (List Str) :=
  if bandas = [] then .ok bandas
  else if "ALL".toList ∈ bandas then .ok ["ALL".toList]
  else
    let bandas_invalidas := bandas.filter (fun b => !(decide (b ∈ VALID_BANDAS)))
    if bandas_invalidas ≠ [] then .error bandas_invalidas
    else .ok bandas

end SatelliteConfigGOES

/-- `recover.py` `_generar_reporte_final`: the names classified as
Lustre-origin are the destination files whose name is not among the
S3-downloaded names. -/
def lustre_names_full (all_names s3_names : List Str) : List Str :=
  all_names.filter (fun n => !(decide (n ∈ s3_names)))

/-- `fuentes.lustre.total` in the final report. -/
def reporte_lustre_total (all_names s3_names : List Str) : Nat :=
  (lustre_names_full all_names s3_names).length

/-- `fuentes.s3.total` in the final report. -/
def reporte_s3_total (s3_names : List Str) : Nat := s3_names.length

/-- `total_archivos` in the final report. -/
def reporte_total_archivos (all_names : List Str) : Nat := all_names.length

lemma length_filter_add_length_filter_not (l : List α) (p : α → Bool) :
    (l.filter p).length + (l.filter (fun a => !(p a))).length = l.length := by
  induction l with
  | nil => rfl
  | cons a t ih =>
    by_cases h : p a = true
    · simp [List.filter_cons, h, ← ih, Nat.succ_add]
    · simp only [Bool.not_eq_true] at h
      simp [List.filter_cons, h, ← ih]
      omega

lemma length_filter_mem_eq (all s3 : List Str) (h1 : all.Nodup)
    (h2 : s3.Nodup) (h3 : ∀ n ∈ s3, n ∈ all) :
    (all.filter (fun n => decide (n ∈ s3))).length = s3.length := by
  have hnd : (all.filter (fun n => decide (n ∈ s3))).Nodup := h1.filter _
  have hset : (all.filter (fun n => decide (n ∈ s3))).toFinset = s3.toFinset := by
    ext n
    simp only [List.mem_toFinset, List.mem_filter, decide_eq_true_eq]
    exact ⟨fun h => h.2, fun h => ⟨h3 n h, h⟩⟩
  calc (all.filter (fun n => decide (n ∈ s3))).length
      = (all.filter (fun n => decide (n ∈ s3))).toFinset.card :=
        (List.toFinset_card_of_nodup hnd).symm
    _ = s3.toFinset.card := by rw [hset]
    _ = s3.length := List.toFinset_card_of_nodup h2

/-- Claim C2: for every completed run, the persisted report satisfies
`fuentes.lustre.total + fuentes.s3.total = total_archivos`, where
`total_archivos` counts the destination files, `fuentes.s3.total` counts the
distinct S3-downloaded files, and `fuentes.lustre.total` counts destination
files whose name is not among the S3-downloaded names.  The hypotheses hold
for a real run: file names within one directory are distinct, and every
S3-downloaded file lives in the destination directory. -/
theorem C2_report_totals (all_names s3_names : List Str)
    (h1 : all_names.Nodup) (h2 : s3_names.Nodup)
    (h3 : ∀ n ∈ s3_names, n ∈ all_names) :
    reporte_total_archivos all_names =
      reporte_lustre_total all_names s3_names + reporte_s3_total s3_names := by
  have hsplit := length_filter_add_length_filter_not all_names
    (fun n => decide (n ∈ s3_names))
  have hmem := length_filter_mem_eq all_names s3_names h1 h2 h3
  unfold reporte_total_archivos reporte_lustre_total lustre_names_full
    reporte_s3_total
  omega

/-- Witness for C2 at a concrete report input. -/
theorem C2_report_totals_witness :
    reporte_total_archivos ["a.tgz".toList, "b.nc".toList, "c.nc".toList] =
      reporte_lustre_total ["a.tgz".toList, "b.nc".toList, "c.nc".toList]
          ["b.nc".toList, "c.nc".toList] +
        reporte_s3_total ["b.nc".toList, "c.nc".toList] :=
  C2_report_totals _ _ (by decide) (by decide) (by decide)

/-- Claim C9 fails on the code: `validate_bandas` short-circuits as soon as
the token `ALL` is present and never inspects the other elements, so the
input `["ALL", "99"]` is accepted although `"99"` is outside the valid
16-band set union the token `ALL`. -/
theorem C9_counterexample :
    SatelliteConfigGOES.validate_bandas ["ALL".toList, "99".toList] =
        .ok ["ALL".toList]
    ∧ "99".toList ∉ SatelliteConfigGOES.VALID_BANDAS
    ∧ "99".toList ≠ "ALL".toList := by
  refine ⟨rfl, by decide, by decide⟩

/-- Claim C9 (amended): `validate_bandas` fails with an InvalidBands error
if and only if the list does not contain the token `ALL` and some element is
outside the valid 16-band set; the empty list is tolerated and returned
without error, and a list containing `ALL` is collapsed to `["ALL"]`. -/
theorem C9_validate_bandas_amended :
    (∀ bandas : List Str,
      (∃ e, SatelliteConfigGOES.validate_bandas bandas = .error e) ↔
        ("ALL".toList ∉ bandas ∧
          ∃ b ∈ bandas, b ∉ SatelliteConfigGOES.VALID_BANDAS))
    ∧ SatelliteConfigGOES.validate_bandas [] = .ok [] := by
  constructor
  · intro bandas
    by_cases h1 : bandas = []
    · subst h1
      simp [SatelliteConfigGOES.validate_bandas]
    · by_cases h2 : "ALL".toList ∈ bandas
      · simp only [SatelliteConfigGOES.validate_bandas, if_neg h1, if_pos h2]
        simp only [reduceCtorEq, exists_false, false_iff, not_and]
        intro hAll
        exact absurd h2 hAll
      · by_cases h3 : bandas.filter
            (fun b => !(decide (b ∈ SatelliteConfigGOES.VALID_BANDAS))) = []
        · simp only [SatelliteConfigGOES.validate_bandas, if_neg h1, if_neg h2,
            h3, ne_eq, not_true_eq_false, if_neg, not_false_eq_true, if_false]
          simp only [reduceCtorEq, exists_false, false_iff, not_and]
          intro _
          rintro ⟨b, hb, hbad⟩
          have := List.filter_eq_nil_iff.mp h3 b hb
          exact hbad (by simpa using this)
        · simp only [SatelliteConfigGOES.validate_bandas, if_neg h1, if_neg h2,
            ne_eq, h3, not_false_eq_true, if_true]
          constructor
          · intro _
            refine ⟨h2, ?_⟩
            rcases List.exists_mem_of_ne_nil _ h3 with ⟨b, hb⟩
            rcases List.mem_filter.mp hb with ⟨hmem, hdec⟩
            refine ⟨b, hmem, ?_⟩
            simpa using hdec
          · intro _
            exact ⟨_, rfl⟩
  · rfl

/-- Python `s.endswith(suf)`. -/
def strEndsWith (suf s : Str) : Bool := leadsWith suf.reverse s.reverse

/-- `recover.py` `_extraer_producto_base`: locate `-L2-` and the next `-M`,
strip the domain suffix (`C`/`F`/`M1`/`M2`), apply the aliases
`CODD|CODN -> COD`, `CPSD|CPSN -> CPS`, `VAAF -> VAA`; any lookup failure
yields `UNKNOWN`. -/
def extraer_producto_base (nombre : Str) : Str :=
  match findSubIdx "-L2-".toList nombre with
  | none => "UNKNOWN".toList
  | some i0 =>
    match findSubIdx "-M".toList (nombre.drop (i0 + 4)) with
    | none => "UNKNOWN".toList
    | some j =>
      let seg := (nombre.drop (i0 + 4)).take j
      let seg :=
        if strEndsWith "C".toList seg ∨ strEndsWith "F".toList seg then
          seg.take (seg.length - 1)
        else if strEndsWith "M1".toList seg ∨ strEndsWith "M2".toList seg then
          seg.take (seg.length - 2)
        else seg
      let aliasMap : List (Str × Str) :=
        [("CODD".toList, "COD".toList), ("CODN".toList, "COD".toList),
         ("COD".toList, "COD".toList), ("CPSD".toList, "CPS".toList),
         ("CPSN".toList, "CPS".toList), ("CPS".toList, "CPS".toList),
         ("VAAF".toList, "VAA".toList), ("VAA".toList, "VAA".toList)]
      match aliasMap.find? (fun kv => kv.1 = seg) with
      | some kv => kv.2
      | none => seg

/-- One `conteo[prod] += 1` step on the association-list counter. -/
def bumpConteo (m : List (Str × Nat)) (k : Str) : List (Str × Nat) :=
  match m with
  | [] => [(k, 1)]
  | (k0, c) :: rest =>
    if k0 = k then (k0, c + 1) :: rest else (k0, c) :: bumpConteo rest k

/-- The per-product counting loop of `_generar_reporte_final`: every file
whose extracted product base is not `UNKNOWN` is counted. -/
def conteo_por_producto (names : List Str) : List (Str × Nat) :=
  names.foldl
    (fun m n =>
      let prod := extraer_producto_base n
      if prod = "UNKNOWN".toList then m else bumpConteo m prod)
    []

lemma extraer_producto_base_eq_unknown_of_no_l2 (nombre : Str)
    (h : findSubIdx "-L2-".toList nombre = none) :
    extraer_producto_base nombre = "UNKNOWN".toList := by
  unfold extraer_producto_base
  rw [h]

lemma conteo_por_producto_nil_of_all_unknown (names : List Str)
    (h : ∀ n ∈ names, extraer_producto_base n = "UNKNOWN".toList) :
    conteo_por_producto names = [] := by
  have key : ∀ (l : List Str) (acc : List (Str × Nat)),
      (∀ n ∈ l, extraer_producto_base n = "UNKNOWN".toList) →
      l.foldl
        (fun m n =>
          let prod := extraer_producto_base n
          if prod = "UNKNOWN".toList then m else bumpConteo m prod)
        acc = acc := by
    intro l
    induction l with
    | nil => intro acc _; rfl
    | cons a t ih =>
      intro acc hall
      have ha := hall a (List.mem_cons_self a t)
      simp only [List.foldl_cons, ha, if_pos rfl]
      exact ih acc (fun n hn => hall n (List.mem_cons_of_mem a hn))
  exact key names [] h

/-- Claim C10: the per-product report counters only count files whose name
contains `-L2-` followed by a later `-M`; any file without that shape — in
particular an L1b filename — is classified `UNKNOWN` and omitted, so the
count maps of a destination with no `-L2-` names (a pure L1b query) are
empty.  Both `conteo_por_producto` and `conteo_por_producto_s3` are this
same counting loop applied to the destination list and the S3 list. -/
theorem C10_product_counters :
    (∀ nombre : Str,
      extraer_producto_base nombre ≠ "UNKNOWN".toList →
        ∃ i j, findSubIdx "-L2-".toList nombre = some i ∧
          findSubIdx "-M".toList (nombre.drop (i + 4)) = some j)
    ∧ (∀ names : List Str,
        (∀ n ∈ names, findSubIdx "-L2-".toList n = none) →
          conteo_por_producto names = [])
    ∧ extraer_producto_base
        "OR_ABI-L1b-RadF-M6C13_G16_s20232991200000_e20232991209000_c20232991210000.nc".toList
        = "UNKNOWN".toList := by
  refine ⟨?_, ?_, by decide⟩
  · intro nombre hne
    cases hfind : findSubIdx "-L2-".toList nombre with
    | none => exact absurd (extraer_producto_base_eq_unknown_of_no_l2 nombre hfind) hne
    | some i0 =>
      cases hfind2 : findSubIdx "-M".toList (nombre.drop (i0 + 4)) with
      | none =>
        have hu : extraer_producto_base nombre = "UNKNOWN".toList := by
          unfold extraer_producto_base
          simp only [hfind, hfind2]
        exact absurd hu hne
      | some j => exact ⟨i0, j, rfl, hfind2⟩
  · intro names h
    exact conteo_por_producto_nil_of_all_unknown names
      (fun n hn => extraer_producto_base_eq_unknown_of_no_l2 n (h n hn))

/-- Witness for C10 at a concrete destination listing. -/
theorem C10_product_counters_witness :
    conteo_por_producto
      ["OR_ABI-L1b-RadF-M6C13_G16_s20232991200000_e20232991209000_c20232991210000.nc".toList,
       "ABI-L1b-RadF-M6_GEAST-s20232991200.tgz".toList] = [] :=
  C10_product_counters.2.1 _ (by decide)

/-- `_process_safe_recover_file`: the request asked for all bands when the
band list literally contains `ALL` or equals the full valid set (Python set
equality, modelled with `toFinset`). -/
def bandas_indican_all (bandas_solicitadas_list : List Str) : Prop :=
  "ALL".toList ∈ bandas_solicitadas_list ∨
    bandas_solicitadas_list.toFinset = SatelliteConfigGOES.VALID_BANDAS.toFinset

instance (bandas : List Str) : Decidable (bandas_indican_all bandas) := by
  unfold bandas_indican_all
  infer_instance

/-- `_process_safe_recover_file`: the request asked for all products when the
uppercased product list contains `ALL` or equals the full valid product set
uppercased. -/
def productos_indican_all (productos_solicitados_list : List Str) : Prop :=
  "ALL".toList ∈ productos_solicitados_list.map strUpper ∨
    (productos_solicitados_list.map strUpper).toFinset =
      (SatelliteConfigGOES.VALID_PRODUCTS.map strUpper).toFinset

instance (productos : List Str) : Decidable (productos_indican_all productos) := by
  unfold productos_indican_all
  infer_instance

/-- The whole-copy condition of `_process_safe_recover_file`. -/
def copiar_tgz_completo (nivel : Str) (productos bandas : List Str) : Bool :=
  (decide (strUpper nivel = "L1B".toList) && decide (bandas_indican_all bandas)) ||
  (decide (strUpper nivel = "L2".toList) && decide (bandas_indican_all bandas) &&
    decide (productos_indican_all productos))

inductive AccionArchivo where
  | copia_completa : AccionArchivo
  | extraccion_selectiva : AccionArchivo
deriving DecidableEq

/-- `_process_safe_recover_file` either copies the `.tgz` whole or opens it
for selective extraction; which branch runs is decided solely by the
whole-copy condition on (level, original products, original bands). -/
def process_recover_action (nivel : Str) (productos bandas : List Str) : AccionArchivo :=
  if copiar_tgz_completo nivel productos bandas then .copia_completa
  else .extraccion_selectiva

/-- Claim C5: a local archive is copied whole (rather than opened for
selective extraction) if and only if the level is L1b and the originally
requested bands were `ALL` or equal the full 16-element band set, or the
level is L2 and both the originally requested bands and products were `ALL`
or each equals its full valid set (products compared after uppercasing, as
the code uppercases both sides). -/
theorem C5_whole_copy_iff (nivel : Str) (productos bandas : List Str)
    (h : nivel = "L1b".toList ∨ nivel = "L2".toList) :
    process_recover_action nivel productos bandas = AccionArchivo.copia_completa ↔
      ((nivel = "L1b".toList ∧
          ("ALL".toList ∈ bandas ∨
            bandas.toFinset = SatelliteConfigGOES.VALID_BANDAS.toFinset)) ∨
        (nivel = "L2".toList ∧
          ("ALL".toList ∈ bandas ∨
            bandas.toFinset = SatelliteConfigGOES.VALID_BANDAS.toFinset) ∧
          ("ALL".toList ∈ productos.map strUpper ∨
            (productos.map strUpper).toFinset =
              (SatelliteConfigGOES.VALID_PRODUCTS.map strUpper).toFinset))) := by
  have hact : ∀ n p b, process_recover_action n p b = AccionArchivo.copia_completa ↔
      copiar_tgz_completo n p b = true := by
    intro n p b
    unfold process_recover_action
    by_cases hc : copiar_tgz_completo n p b = true
    · simp [hc]
    · simp [hc]
  rw [hact]
  rcases h with h | h <;> subst h
  · have e1 : strUpper ['L', '1', 'b'] = ['L', '1', 'B'] := by decide
    have e2 : (['L', '1', 'B'] : Str) ≠ ['L', '2'] := by decide
    have e3 : (['L', '1', 'b'] : Str) ≠ ['L', '2'] := by decide
    simp [copiar_tgz_completo, e1, e2, e3, bandas_indican_all]
  · have e1 : strUpper ['L', '2'] = ['L', '2'] := by decide
    have e2 : (['L', '2'] : Str) ≠ ['L', '1', 'B'] := by decide
    have e3 : (['L', '2'] : Str) ≠ ['L', '1', 'b'] := by decide
    simp [copiar_tgz_completo, e1, e2, e3, bandas_indican_all,
      productos_indican_all, and_assoc]

/-- Witness for C5: an L1b archive with bands requested as `ALL` is copied
whole. -/
theorem C5_whole_copy_iff_witness :
    process_recover_action "L1b".toList [] ["ALL".toList] =
      AccionArchivo.copia_completa :=
  (C5_whole_copy_iff "L1b".toList [] ["ALL".toList] (Or.inl rfl)).mpr
    (Or.inl ⟨rfl, Or.inl (by decide)⟩)

/-- `LustreRecoverFiles.scan_existing_files`: when the destination holds
files, collect the 11 characters after `_s` of each destination file name
and keep as pending every candidate whose 11 characters after `_s` are not
in that set; a candidate without `_s` in its name is always kept. -/
def scan_existing_files (archivos_a_procesar destino_files : List Str) : List Str :=
  if destino_files = [] then archivos_a_procesar
  else
    let timestamps_existentes := destino_files.filterMap (fun f =>
      (findSubIdx "_s".toList f).map (fun i => (f.drop (i + 2)).take 11))
    archivos_a_procesar.filter (fun a =>
      match findSubIdx "_s".toList a with
      | some i => !(decide ((a.drop (i + 2)).take 11 ∈ timestamps_existentes))
      | none => true)

/-- Modelled from the spec (claim side of C4): the resume scan extracts the
same 11-character timestamp used by the local filter — the characters after
`-s`, the local-archive timestamp convention — from the destination files
and drops any candidate whose timestamp is already represented; candidates
without a parseable timestamp stay pending. -/
def scan_existing_resume_claim (archivos_a_procesar destino_files : List Str) : List Str :=
  if destino_files = [] then archivos_a_procesar
  else
    let timestamps_existentes := destino_files.filterMap (fun f =>
      (findSubIdx "-s".toList f).map (fun i => (f.drop (i + 2)).take 11))
    archivos_a_procesar.filter (fun a =>
      match findSubIdx "-s".toList a with
      | some i => !(decide ((a.drop (i + 2)).take 11 ∈ timestamps_existentes))
      | none => true)

/-- Claim C4 fails on the code: local archive names embed their timestamp
after `-s`, but `scan_existing_files` searches for `_s` on both sides, so a
candidate whose timestamp is already present in the destination (here the
archive itself, already copied whole) is still returned as pending, while
the specified resume scan would drop it. -/
theorem C4_resume_scan_code_bug :
    scan_existing_files
        ["ABI-L1b-RadF-M6-GEAST-s20232991200.tgz".toList]
        ["ABI-L1b-RadF-M6-GEAST-s20232991200.tgz".toList] =
      ["ABI-L1b-RadF-M6-GEAST-s20232991200.tgz".toList]
    ∧ scan_existing_resume_claim
        ["ABI-L1b-RadF-M6-GEAST-s20232991200.tgz".toList]
        ["ABI-L1b-RadF-M6-GEAST-s20232991200.tgz".toList] = [] :=
  ⟨rfl, rfl⟩

/-- A query record's user-visible terminal fields. -/
structure EstadoConsulta where
  estado : Str
  progreso : Nat
  mensaje : Str
deriving DecidableEq

/-- The parameter list of `ConsultasDatabase.guardar_resultados` in
`database.py`: `def guardar_resultados(self, consulta_id, resultados)` — it
has no `mensaje` parameter. -/
def guardar_resultados_params : List Str :=
  ["self".toList, "consulta_id".toList, "resultados".toList]

/-- Python call binding: a call with `n_positional` positional arguments and
the given keyword names binds successfully only when every keyword names a
parameter not already bound positionally; otherwise the call raises
`TypeError` before the body runs. -/
def pyCallBindOk (params : List Str) (n_positional : Nat) (kwargs : List Str) : Bool :=
  decide (n_positional ≤ params.length) &&
  kwargs.all (fun k => decide (k ∈ params.drop n_positional))

/-- The terminal message `recover.py` builds at the end of
`procesar_consulta`:
`Recuperación: T=<total>, L=<lustre>, S=<s3>` plus `, F=<failed>` only when
there are failures. -/
def mensaje_final_fmt (total lustre s3 fallidos : Nat) : Str :=
  "Recuperación: T=".toList ++ natToStr total ++
  ", L=".toList ++ natToStr lustre ++
  ", S=".toList ++ natToStr s3 ++
  (if fallidos ≠ 0 then ", F=".toList ++ natToStr fallidos else [])

/-- The tail of `RecoverFiles.procesar_consulta`: it invokes
`self.db.guardar_resultados(consulta_id, resultados_finales,
mensaje=mensaje_final)` (3 positional arguments counting `self`, plus the
keyword `mensaje`) inside the `try`; if that call binds, the record reaches
`completado` (via `guardar_resultados`, which writes `progreso = 100` and
the fixed message); if the call raises, the `except` branch writes
`estado = error, progreso = 0, mensaje = "Error: <detail>"`. -/
def procesar_consulta_finalize (mensaje_final : Str) : EstadoConsulta :=
  if pyCallBindOk guardar_resultados_params 3 ["mensaje".toList] then
    { estado := "completado".toList, progreso := 100,
      mensaje := "Procesamiento completado".toList }
  else
    { estado := "error".toList, progreso := 0,
      mensaje := "Error: guardar_resultados() got an unexpected keyword argument 'mensaje'".toList }

/-- Claim C1 fails on the code: the orchestrator's terminal persistence call
passes the keyword `mensaje`, which `ConsultasDatabase.guardar_resultados`
does not accept, so the call raises `TypeError`, the `except` branch runs,
and every run that reaches the terminal step ends in
`estado = error, progreso = 0` instead of `estado = completado` with the
`Recuperación: ...` message (which the code builds — last conjunct — but
never persists). -/
theorem C1_terminal_persistence_code_bug :
    (∀ mensaje_final : Str,
      (procesar_consulta_finalize mensaje_final).estado = "error".toList ∧
      (procesar_consulta_finalize mensaje_final).progreso = 0 ∧
      (procesar_consulta_finalize mensaje_final).estado ≠ "completado".toList)
    ∧ pyCallBindOk guardar_resultados_params 3 ["mensaje".toList] = false
    ∧ mensaje_final_fmt 3 2 1 0 = "Recuperación: T=3, L=2, S=1".toList := by
  refine ⟨?_, rfl, by decide⟩
  intro mensaje_final
  refine ⟨rfl, rfl, ?_⟩
  show ("error".toList : Str) ≠ "completado".toList
  decide

/-- Numeric value of a digit string, as Python `int` computes it. -/
def valDigits (s : Str) : Nat := s.foldl (fun a c => a * 10 + digitVal c) 0

lemma valDigits_foldl (b : Str) :
    ∀ v : Nat, b.foldl (fun a c => a * 10 + digitVal c) v =
      v * 10 ^ b.length + valDigits b := by
  induction b with
  | nil => intro v; simp [valDigits]
  | cons c t ih =>
    intro v
    have h1 := ih (v * 10 + digitVal c)
    have h2 := ih (digitVal c)
    simp only [List.foldl_cons, List.length_cons] at h1 h2 ⊢
    rw [h1]
    have hv : valDigits (c :: t) = digitVal c * 10 ^ t.length + valDigits t := by
      unfold valDigits
      simpa using h2
    rw [hv]
    ring

lemma valDigits_append (a b : Str) :
    valDigits (a ++ b) = valDigits a * 10 ^ b.length + valDigits b := by
  unfold valDigits
  rw [List.foldl_append]
  exact valDigits_foldl b _

lemma parseNatDigits_of_digits (s : Str) (h1 : s ≠ [])
    (h2 : ∀ c ∈ s, c.isDigit = true) :
    parseNatDigits s = some (valDigits s) := by
  unfold parseNatDigits valDigits
  rw [if_pos]
  refine ⟨by simpa using h1, ?_⟩
  rw [List.all_eq_true]
  exact h2

/-- Python `s.split(sep)` for a one-character separator. -/
def splitOnChar (sep : Char) : Str → List Str
  | [] => [[]]
  | c :: rest =>
    if c = sep then [] :: splitOnChar sep rest
    else
      match splitOnChar sep rest with
      | h :: t => (c :: h) :: t
      | [] => [[c]]

lemma splitOnChar_no_sep (sep : Char) (s : Str) (h : ∀ c ∈ s, c ≠ sep) :
    splitOnChar sep s = [s] := by
  induction s with
  | nil => rfl
  | cons c t ih =>
    have hc : c ≠ sep := h c (List.mem_cons_self c t)
    have ht := ih (fun x hx => h x (List.mem_cons_of_mem c hx))
    simp [splitOnChar, hc, ht]

lemma splitOnChar_single_sep (sep : Char) (a b : Str)
    (ha : ∀ c ∈ a, c ≠ sep) (hb : ∀ c ∈ b, c ≠ sep) :
    splitOnChar sep (a ++ sep :: b) = [a, b] := by
  induction a with
  | nil => simp [splitOnChar, splitOnChar_no_sep sep b hb]
  | cons c t ih =>
    have hc : c ≠ sep := ha c (List.mem_cons_self c t)
    have ht := ih (fun x hx => ha x (List.mem_cons_of_mem c hx))
    simp [splitOnChar, hc, ht]

lemma digitChar_isDigit (d : Nat) (h : d < 10) :
    (Nat.digitChar d).isDigit = true := by
  interval_cases d <;> rfl

lemma digitVal_digitChar (d : Nat) (h : d < 10) :
    digitVal (Nat.digitChar d) = d := by
  interval_cases d <;> rfl

lemma isDigit_ne_colon (c : Char) (h : c.isDigit = true) : c ≠ ':' := by
  intro he
  subst he
  exact absurd h (by decide)

lemma isDigit_ne_dash (c : Char) (h : c.isDigit = true) : c ≠ '-' := by
  intro he
  subst he
  exact absurd h (by decide)

/-- The two-character rendering `f"{n:02d}"` of a value below 100 (used to
describe well-formed `HH`/`MM` components in hypotheses). -/
def digit2 (n : Nat) : Str := [Nat.digitChar (n / 10 % 10), Nat.digitChar (n % 10)]

lemma digit2_isDigit (n : Nat) : ∀ c ∈ digit2 n, c.isDigit = true := by
  intro c hc
  simp only [digit2, List.mem_cons, List.not_mem_nil, or_false] at hc
  rcases hc with rfl | rfl
  · exact digitChar_isDigit _ (Nat.mod_lt _ (by norm_num))
  · exact digitChar_isDigit _ (Nat.mod_lt _ (by norm_num))

lemma valDigits_digit2 (n : Nat) (h : n < 100) : valDigits (digit2 n) = n := by
  have h1 : n / 10 % 10 < 10 := Nat.mod_lt _ (by norm_num)
  have h2 : n % 10 < 10 := Nat.mod_lt _ (by norm_num)
  show (0 * 10 + digitVal (Nat.digitChar (n / 10 % 10))) * 10 +
      digitVal (Nat.digitChar (n % 10)) = n
  rw [digitVal_digitChar _ h1, digitVal_digitChar _ h2]
  omega

/-- The canonical `HH:MM` rendering of a time. -/
def hmStr (hh mm : Nat) : Str := digit2 hh ++ ':' :: digit2 mm

lemma hmStr_ne_dash (hh mm : Nat) : ∀ c ∈ hmStr hh mm, c ≠ '-' := by
  intro c hc
  simp only [hmStr, List.mem_append, List.mem_cons] at hc
  rcases hc with h | h | h
  · exact isDigit_ne_dash c (digit2_isDigit hh c h)
  · subst h; decide
  · exact isDigit_ne_dash c (digit2_isDigit mm c h)

lemma pyStrLe_cons_iff (x y : Char) (xs ys : Str) :
    pyStrLe (x :: xs) (y :: ys) = true ↔
      x.toNat < y.toNat ∨ (x.toNat = y.toNat ∧ pyStrLe xs ys = true) := by
  simp only [pyStrLe]
  split_ifs with h1 h2
  · simp [h1]
  · simp only [false_iff]
    push_neg
    constructor
    · omega
    · intro h _; omega
  · have hxy : x.toNat = y.toNat := by omega
    simp [hxy]

lemma pyStrLe_total (a : Str) : ∀ b : Str, pyStrLe a b || pyStrLe b a := by
  induction a with
  | nil => intro b; simp [pyStrLe]
  | cons x xs ih =>
    intro b
    cases b with
    | nil => simp [pyStrLe]
    | cons y ys =>
      rcases Nat.lt_trichotomy x.toNat y.toNat with h | h | h
      · have : pyStrLe (x :: xs) (y :: ys) = true := by
          rw [pyStrLe_cons_iff]; exact Or.inl h
        simp [this]
      · have hxy := ih ys
        rcases Bool.or_eq_true_iff.mp (by simpa using hxy) with h1 | h1
        · have : pyStrLe (x :: xs) (y :: ys) = true := by
            rw [pyStrLe_cons_iff]; exact Or.inr ⟨h, h1⟩
          simp [this]
        · have : pyStrLe (y :: ys) (x :: xs) = true := by
            rw [pyStrLe_cons_iff]; exact Or.inr ⟨h.symm, h1⟩
          simp [this]
      · have : pyStrLe (y :: ys) (x :: xs) = true := by
          rw [pyStrLe_cons_iff]; exact Or.inl h
        simp [this]

lemma pyStrLe_trans (a : Str) :
    ∀ b c : Str, pyStrLe a b = true → pyStrLe b c = true → pyStrLe a c = true := by
  induction a with
  | nil => intro b c _ _; cases c <;> simp [pyStrLe]
  | cons x xs ih =>
    intro b c hab hbc
    cases b with
    | nil => simp [pyStrLe] at hab
    | cons y ys =>
      cases c with
      | nil => simp [pyStrLe] at hbc
      | cons z zs =>
        rw [pyStrLe_cons_iff] at hab hbc ⊢
        rcases hab with h1 | ⟨h1, h1t⟩ <;> rcases hbc with h2 | ⟨h2, h2t⟩
        · exact Or.inl (by omega)
        · exact Or.inl (by omega)
        · exact Or.inl (by omega)
        · exact Or.inr ⟨by omega, ih ys zs h1t h2t⟩

namespace LustreRecoverFiles

/-- The per-range numeric window of
`LustreRecoverFiles.filter_files_by_time`: split the range string at `-`,
strip the colons, and build the whole-hour timestamps
`<fecha><HH_start>00` and `<fecha><HH_end>59`; `none` models the
`ValueError` branch that skips the range. -/
def rango_ts (fecha_jjj horario_str : Str) : Option (Nat × Nat) :=
  let partes := splitOnChar '-' horario_str
  let inicio_hhmm := (partes.headD []).filter (fun c => !(decide (c = ':')))
  let fin_hhmm :=
    if 1 < partes.length then
      (partes.getD 1 []).filter (fun c => !(decide (c = ':')))
    else inicio_hhmm
  match parseNatDigits (fecha_jjj ++ inicio_hhmm.take 2 ++ "00".toList),
      parseNatDigits (fecha_jjj ++ fin_hhmm.take 2 ++ "59".toList) with
  | some inicio_ts, some fin_ts => some (inicio_ts, fin_ts)
  | _, _ => none

/-- The embedded start timestamp of a local archive: the 11 characters after
the first `-s`, read as an integer; `none` models the skipped-file branch
(no `-s`, or `int` failure). -/
def file_ts (archivo : Str) : Option Nat :=
  match findSubIdx "-s".toList archivo with
  | some i => parseNatDigits ((archivo.drop (i + 2)).take 11)
  | none => none

/-- One candidate's acceptance test against a numeric window. -/
def acepta (inicio_ts fin_ts : Nat) (archivo : Str) : Bool :=
  match file_ts archivo with
  | some ts => decide (inicio_ts ≤ ts) && decide (ts ≤ fin_ts)
  | none => false

/-- `LustreRecoverFiles.filter_files_by_time`: for every requested range (in
order) append every candidate whose embedded timestamp falls in the range's
whole-hour window. -/
def filter_files_by_time (archivos_candidatos : List Str) (fecha_jjj : Str)
    (horarios_list : List Str) : List Str :=
  horarios_list.foldl
    (fun acc horario_str =>
      match rango_ts fecha_jjj horario_str with
      | none => acc
      | some (inicio_ts, fin_ts) =>
        acc ++ archivos_candidatos.filter (acepta inicio_ts fin_ts))
    []

/-- `LustreRecoverFiles.discover_and_filter_files`, one day's worth: the
filtered candidates are collected into a set (`dedup`) and returned sorted
(Python `sorted(list(set(...)))`). -/
def discover_and_filter_files (archivos_candidatos : List Str)
    (fecha_jjj : Str) (horarios_list : List Str) : List Str :=
  ((filter_files_by_time archivos_candidatos fecha_jjj horarios_list).dedup).mergeSort
    (fun a b => pyStrLe a b)

lemma filter_files_by_time_eq_flatMap (cands : List Str) (fecha : Str)
    (hs : List Str) :
    filter_files_by_time cands fecha hs = hs.flatMap (fun h =>
      match rango_ts fecha h with
      | none => []
      | some (inicio_ts, fin_ts) => cands.filter (acepta inicio_ts fin_ts)) := by
  have key : ∀ (l : List Str) (acc : List Str),
      l.foldl
        (fun acc horario_str =>
          match rango_ts fecha horario_str with
          | none => acc
          | some (inicio_ts, fin_ts) =>
            acc ++ cands.filter (acepta inicio_ts fin_ts)) acc =
      acc ++ l.flatMap (fun h =>
        match rango_ts fecha h with
        | none => []
        | some (inicio_ts, fin_ts) => cands.filter (acepta inicio_ts fin_ts)) := by
    intro l
    induction l with
    | nil => intro acc; simp
    | cons h t ih =>
      intro acc
      simp only [List.foldl_cons, List.flatMap_cons]
      cases hr : rango_ts fecha h with
      | none => rw [ih]; simp
      | some p =>
        cases p with
        | mk lo hi => rw [ih]; simp [List.append_assoc]
  exact key hs []

lemma filter_not_colon_of_digits (s : Str) (h : ∀ c ∈ s, c.isDigit = true) :
    s.filter (fun c => !(decide (c = ':'))) = s := by
  apply List.filter_eq_self.mpr
  intro c hc
  simp [isDigit_ne_colon c (h c hc)]

lemma filter_hmStr (hh mm : Nat) :
    (hmStr hh mm).filter (fun c => !(decide (c = ':'))) =
      digit2 hh ++ digit2 mm := by
  unfold hmStr
  rw [List.filter_append]
  rw [filter_not_colon_of_digits _ (digit2_isDigit hh)]
  congr 1
  rw [List.filter_cons]
  simp [filter_not_colon_of_digits _ (digit2_isDigit mm)]

lemma digits_append_ts (fecha : Str) (hdig : ∀ c ∈ fecha, c.isDigit = true)
    (hh : Nat) (tail : Str) (htail : ∀ c ∈ tail, c.isDigit = true) :
    ∀ c ∈ fecha ++ (digit2 hh ++ tail), c.isDigit = true := by
  intro c hc
  rcases List.mem_append.mp hc with h | h
  · exact hdig c h
  · rcases List.mem_append.mp h with h2 | h2
    · exact digit2_isDigit hh c h2
    · exact htail c h2

lemma valDigits_fecha_block (fecha : Str) (hh : Nat) (hhh : hh < 100)
    (tail : Str) (htl : tail.length = 2) :
    valDigits (fecha ++ (digit2 hh ++ tail)) =
      valDigits fecha * 10000 + hh * 100 + valDigits tail := by
  rw [valDigits_append fecha (digit2 hh ++ tail),
      valDigits_append (digit2 hh) tail]
  have hlen : (digit2 hh ++ tail).length = 4 := by simp [digit2, htl]
  rw [hlen, valDigits_digit2 hh hhh, htl]
  norm_num
  ring

lemma parse_fecha_block (fecha : Str) (hne : fecha ≠ [])
    (hdig : ∀ c ∈ fecha, c.isDigit = true) (hh : Nat) (hhh : hh < 100)
    (tail : Str) (htl : tail.length = 2)
    (htd : ∀ c ∈ tail, c.isDigit = true) :
    parseNatDigits (fecha ++ (digit2 hh ++ tail)) =
      some (valDigits fecha * 10000 + hh * 100 + valDigits tail) := by
  have hne2 : fecha ++ (digit2 hh ++ tail) ≠ [] := by simp [digit2]
  rw [parseNatDigits_of_digits _ hne2 (digits_append_ts fecha hdig hh tail htd),
      valDigits_fecha_block fecha hh hhh tail htl]

lemma rango_ts_single (fecha : Str) (hne : fecha ≠ [])
    (hdig : ∀ c ∈ fecha, c.isDigit = true) (sh sm : Nat) (hsh : sh < 100) :
    rango_ts fecha (hmStr sh sm) =
      some (valDigits fecha * 10000 + sh * 100,
        valDigits fecha * 10000 + sh * 100 + 59) := by
  have hsplit := splitOnChar_no_sep '-' (hmStr sh sm) (hmStr_ne_dash sh sm)
  have htake : (digit2 sh ++ digit2 sm).take 2 = digit2 sh := by
    simp [digit2]
  have hp0 := parse_fecha_block fecha hne hdig sh hsh ['0', '0'] rfl (by decide)
  have hp5 := parse_fecha_block fecha hne hdig sh hsh ['5', '9'] rfl (by decide)
  have h00 : valDigits ['0', '0'] = 0 := by decide
  have h59 : valDigits ['5', '9'] = 59 := by decide
  rw [h00] at hp0
  rw [h59] at hp5
  simp only [rango_ts, hsplit]
  norm_num
  simp only [filter_hmStr, htake]
  rw [hp0, hp5]
  norm_num

lemma rango_ts_range (fecha : Str) (hne : fecha ≠ [])
    (hdig : ∀ c ∈ fecha, c.isDigit = true) (sh sm eh em : Nat)
    (hsh : sh < 100) (heh : eh < 100) :
    rango_ts fecha (hmStr sh sm ++ '-' :: hmStr eh em) =
      some (valDigits fecha * 10000 + sh * 100,
        valDigits fecha * 10000 + eh * 100 + 59) := by
  have hsplit := splitOnChar_single_sep '-' (hmStr sh sm) (hmStr eh em)
    (hmStr_ne_dash sh sm) (hmStr_ne_dash eh em)
  have htakeS : (digit2 sh ++ digit2 sm).take 2 = digit2 sh := by simp [digit2]
  have htakeE : (digit2 eh ++ digit2 em).take 2 = digit2 eh := by simp [digit2]
  have hp0 := parse_fecha_block fecha hne hdig sh hsh ['0', '0'] rfl (by decide)
  have hp5 := parse_fecha_block fecha hne hdig eh heh ['5', '9'] rfl (by decide)
  have h00 : valDigits ['0', '0'] = 0 := by decide
  have h59 : valDigits ['5', '9'] = 59 := by decide
  rw [h00] at hp0
  rw [h59] at hp5
  simp only [rango_ts, hsplit]
  norm_num
  simp only [filter_hmStr, htakeS, htakeE]
  rw [hp0, hp5]
  norm_num

lemma acepta_iff (lo hi : Nat) (a : Str) :
    acepta lo hi a = true ↔ ∃ ts, file_ts a = some ts ∧ lo ≤ ts ∧ ts ≤ hi := by
  unfold acepta
  cases hts : file_ts a with
  | none => simp
  | some ts => simp

lemma mem_filter_files_by_time_iff (cands : List Str) (fecha : Str)
    (hs : List Str) (a : Str) :
    a ∈ filter_files_by_time cands fecha hs ↔
      ∃ h ∈ hs, ∃ lo hi, rango_ts fecha h = some (lo, hi) ∧
        a ∈ cands ∧ acepta lo hi a = true := by
  rw [filter_files_by_time_eq_flatMap, List.mem_flatMap]
  constructor
  · rintro ⟨h, hh, hmem⟩
    cases hr : rango_ts fecha h with
    | none => rw [hr] at hmem; cases hmem
    | some p =>
      cases p with
      | mk lo hi =>
        rw [hr] at hmem
        rcases List.mem_filter.mp hmem with ⟨hc, hacc⟩
        exact ⟨h, hh, lo, hi, hr, hc, hacc⟩
  · rintro ⟨h, hh, lo, hi, hr, hc, hacc⟩
    refine ⟨h, hh, ?_⟩
    rw [hr]
    exact List.mem_filter.mpr ⟨hc, hacc⟩

end LustreRecoverFiles

/-- Claim C6: for every query day, the local discoverer accepts a candidate
archive if and only if its embedded timestamp — the 11 characters after the
first `-s`, read as the integer `YYYYJJJHHMM` — lies within the whole-hour
window `[<fecha><startHH>00, <fecha><endHH>59]` of some requested time range
for that day; archives without a parseable timestamp are silently skipped
(never accepted), duplicates are removed, and the output is sorted.  The
hypotheses say the day key is a digit string and every requested range is a
well-formed `HH:MM` or `HH:MM-HH:MM` string, which normalization
guarantees. -/
theorem C6_local_discover_filter (cands : List Str) (fecha_jjj : Str)
    (horarios : List Str) (hne : fecha_jjj ≠ [])
    (hdig : ∀ c ∈ fecha_jjj, c.isDigit = true)
    (hw : ∀ h ∈ horarios, ∃ sh sm eh em,
      sh < 24 ∧ sm < 60 ∧ eh < 24 ∧ em < 60 ∧
      (h = hmStr sh sm ∧ eh = sh ∧ em = sm ∨
        h = hmStr sh sm ++ '-' :: hmStr eh em)) :
    (∀ a, a ∈ LustreRecoverFiles.discover_and_filter_files cands fecha_jjj horarios ↔
      (a ∈ cands ∧ ∃ ts, LustreRecoverFiles.file_ts a = some ts ∧
        ∃ h ∈ horarios, ∃ sh sm eh em,
          sh < 24 ∧ sm < 60 ∧ eh < 24 ∧ em < 60 ∧
          (h = hmStr sh sm ∧ eh = sh ∧ em = sm ∨
            h = hmStr sh sm ++ '-' :: hmStr eh em) ∧
          valDigits fecha_jjj * 10000 + sh * 100 ≤ ts ∧
          ts ≤ valDigits fecha_jjj * 10000 + eh * 100 + 59))
    ∧ (LustreRecoverFiles.discover_and_filter_files cands fecha_jjj horarios).Nodup
    ∧ List.Pairwise (fun a b : Str => pyStrLe a b = true)
        (LustreRecoverFiles.discover_and_filter_files cands fecha_jjj horarios) := by
  refine ⟨?_, ?_, ?_⟩
  · intro a
    unfold LustreRecoverFiles.discover_and_filter_files
    rw [(List.mergeSort_perm _ _).mem_iff, List.mem_dedup,
      LustreRecoverFiles.mem_filter_files_by_time_iff]
    constructor
    · rintro ⟨h, hh, lo, hi, hr, hc, hacc⟩
      rcases (LustreRecoverFiles.acepta_iff lo hi a).mp hacc with ⟨ts, hts, hlo, hhi⟩
      rcases hw h hh with ⟨sh, sm, eh, em, hsh, hsm, heh, hem, hshape⟩
      have hbound : lo = valDigits fecha_jjj * 10000 + sh * 100 ∧
          hi = valDigits fecha_jjj * 10000 + eh * 100 + 59 := by
        rcases hshape with ⟨hf, hehs, _⟩ | hf
        · rw [hf, LustreRecoverFiles.rango_ts_single fecha_jjj hne hdig sh sm
            (by omega)] at hr
          simp only [Option.some.injEq, Prod.mk.injEq] at hr
          refine ⟨hr.1.symm, ?_⟩
          rw [hehs]
          exact hr.2.symm
        · rw [hf, LustreRecoverFiles.rango_ts_range fecha_jjj hne hdig sh sm eh em
            (by omega) (by omega)] at hr
          simp only [Option.some.injEq, Prod.mk.injEq] at hr
          exact ⟨hr.1.symm, hr.2.symm⟩
      exact ⟨hc, ts, hts, h, hh, sh, sm, eh, em, hsh, hsm, heh, hem, hshape,
        by omega, by omega⟩
    · rintro ⟨hc, ts, hts, h, hh, sh, sm, eh, em, hsh, hsm, heh, hem, hshape,
        hlo, hhi⟩
      rcases hshape with ⟨hf, hehs, _⟩ | hf
      · refine ⟨h, hh, valDigits fecha_jjj * 10000 + sh * 100,
          valDigits fecha_jjj * 10000 + sh * 100 + 59, ?_, hc, ?_⟩
        · rw [hf]
          exact LustreRecoverFiles.rango_ts_single fecha_jjj hne hdig sh sm
            (by omega)
        · refine (LustreRecoverFiles.acepta_iff _ _ a).mpr ⟨ts, hts, hlo, ?_⟩
          rw [hehs] at hhi
          exact hhi
      · refine ⟨h, hh, valDigits fecha_jjj * 10000 + sh * 100,
          valDigits fecha_jjj * 10000 + eh * 100 + 59, ?_, hc, ?_⟩
        · rw [hf]
          exact LustreRecoverFiles.rango_ts_range fecha_jjj hne hdig sh sm eh em
            (by omega) (by omega)
        · exact (LustreRecoverFiles.acepta_iff _ _ a).mpr ⟨ts, hts, hlo, hhi⟩
  · exact ((List.mergeSort_perm _ _).nodup_iff).mpr (List.nodup_dedup _)
  · exact List.sorted_mergeSort (fun a b c hab hbc => pyStrLe_trans a b c hab hbc)
      (fun a b => pyStrLe_total a b) _

/-- Witness for C6: one archive whose `-s` timestamp 2023299120012 lies in
the 12:00-13:00 window of day 2023299 is accepted. -/
theorem C6_local_discover_filter_witness :
    "A-s20232991205.tgz".toList ∈
      LustreRecoverFiles.discover_and_filter_files
        ["A-s20232991205.tgz".toList, "B-s20232991805.tgz".toList]
        "2023299".toList ["12:00-13:00".toList] :=
  ((C6_local_discover_filter
      ["A-s20232991205.tgz".toList, "B-s20232991805.tgz".toList]
      "2023299".toList ["12:00-13:00".toList]
      (by decide) (by decide)
      (by
        intro h hh
        rw [List.mem_singleton] at hh
        subst hh
        exact ⟨12, 0, 13, 0, by decide, by decide, by decide, by decide,
          Or.inr (by decide)⟩)).1 _).mpr
    ⟨by decide, 20232991205, by decide,
      "12:00-13:00".toList, List.mem_singleton.mpr rfl,
      12, 0, 13, 0, by decide, by decide, by decide, by decide,
      Or.inr (by decide), by decide, by decide⟩

lemma parse_digit2 (n : Nat) (h : n < 100) : parseNatDigits (digit2 n) = some n := by
  rw [parseNatDigits_of_digits _ (by simp [digit2]) (digit2_isDigit n),
    valDigits_digit2 n h]

lemma hmStr_take2 (hh mm : Nat) : (hmStr hh mm).take 2 = digit2 hh := by
  simp [hmStr, digit2]

lemma hmStr_drop3_take2 (hh mm : Nat) :
    ((hmStr hh mm).drop 3).take 2 = digit2 mm := by
  simp [hmStr, digit2]

namespace S3RecoverFiles

/-- The range loop of `S3RecoverFiles.filter_files_by_time`: each range is
split at `-`, hour/minute substrings are parsed with `int` (a parse failure
is an uncaught `ValueError`, modelled as `Except.error`), and the file's
minute-of-day is tested with both endpoints inclusive; the first matching
range accepts the file. -/
def rangos_loop (archivo_hm : Nat) : List Str → Except Unit Bool
  | [] => .ok false
  | horario_str :: rest =>
    let partes := splitOnChar '-' horario_str
    let inicio := partes.headD []
    let fin := if 1 < partes.length then partes.getD 1 [] else inicio
    match parseNatDigits (inicio.take 2), parseNatDigits ((inicio.drop 3).take 2),
        parseNatDigits (fin.take 2), parseNatDigits ((fin.drop 3).take 2) with
    | some ih, some im, some fh, some fm =>
      if ih * 60 + im ≤ archivo_hm ∧ archivo_hm ≤ fh * 60 + fm then .ok true
      else rangos_loop archivo_hm rest
    | _, _, _, _ => .error ()

/-- The per-file decision of `S3RecoverFiles.filter_files_by_time`: extract
the substring between the first `_s` and the first `_e`; reject when either
marker is missing, the substring is shorter than 11 characters, or its first
7 characters differ from the day key; otherwise parse `HH`/`MM` (an uncaught
`ValueError` on non-digits) and run the range loop. -/
def file_decision (nombre fecha_jjj : Str) (horarios : List Str) : Except Unit Bool :=
  match findSubIdx "_s".toList nombre, findSubIdx "_e".toList nombre with
  | some s_idx, some e_idx =>
    let ts_str := (nombre.drop (s_idx + 2)).take (e_idx - (s_idx + 2))
    if ts_str.length < 11 then .ok false
    else
      let anio := ts_str.take 4
      let dia_juliano := (ts_str.drop 4).take 3
      let hora := (ts_str.drop 7).take 2
      let minuto := (ts_str.drop 9).take 2
      if anio ++ dia_juliano ≠ fecha_jjj then .ok false
      else
        match parseNatDigits hora, parseNatDigits minuto with
        | some hh, some mm => rangos_loop (hh * 60 + mm) horarios
        | _, _ => .error ()
  | _, _ => .ok false

/-- `S3RecoverFiles.filter_files_by_time`: keep exactly the files the
per-file decision accepts; an exception anywhere aborts the whole call. -/
def filter_files_by_time (archivos_nc : List Str) (fecha_jjj : Str)
    (horarios : List Str) : Except Unit (List Str) :=
  match archivos_nc with
  | [] => .ok []
  | a :: rest =>
    match file_decision a fecha_jjj horarios with
    | .error e => .error e
    | .ok b =>
      match filter_files_by_time rest fecha_jjj horarios with
      | .error e => .error e
      | .ok l => .ok (if b then a :: l else l)

lemma rangos_step_single (hm : Nat) (sh sm : Nat) (hsh : sh < 100)
    (hsm : sm < 100) (rest : List Str) :
    rangos_loop hm (hmStr sh sm :: rest) =
      if sh * 60 + sm ≤ hm ∧ hm ≤ sh * 60 + sm then .ok true
      else rangos_loop hm rest := by
  have hsplit := splitOnChar_no_sep '-' (hmStr sh sm) (hmStr_ne_dash sh sm)
  simp only [rangos_loop, hsplit, List.headD_cons, List.length_cons,
    List.length_nil]
  norm_num
  simp only [hmStr_take2, hmStr_drop3_take2, parse_digit2 sh hsh,
    parse_digit2 sm hsm]

lemma rangos_step_range (hm : Nat) (sh sm eh em : Nat) (hsh : sh < 100)
    (hsm : sm < 100) (heh : eh < 100) (hem : em < 100) (rest : List Str) :
    rangos_loop hm ((hmStr sh sm ++ '-' :: hmStr eh em) :: rest) =
      if sh * 60 + sm ≤ hm ∧ hm ≤ eh * 60 + em then .ok true
      else rangos_loop hm rest := by
  have hsplit := splitOnChar_single_sep '-' (hmStr sh sm) (hmStr eh em)
    (hmStr_ne_dash sh sm) (hmStr_ne_dash eh em)
  simp only [rangos_loop, hsplit, List.headD_cons, List.length_cons,
    List.length_nil, List.getD_cons_succ, List.getD_cons_zero]
  norm_num
  simp only [hmStr_take2, hmStr_drop3_take2, parse_digit2 sh hsh,
    parse_digit2 sm hsm, parse_digit2 eh heh, parse_digit2 em hem]

end S3RecoverFiles

/-- A well-formed requested time range: a 5-character `HH:MM` point (whose
end equals its start) or an 11-character `HH:MM-HH:MM` range, with two-digit
in-bounds components.  Normalization guarantees every persisted range has
this shape. -/
def wfRango (h : Str) (sh sm eh em : Nat) : Prop :=
  sh < 24 ∧ sm < 60 ∧ eh < 24 ∧ em < 60 ∧
  (h = hmStr sh sm ∧ eh = sh ∧ em = sm ∨
    h = hmStr sh sm ++ '-' :: hmStr eh em)

lemma hmStr_parse_eq (a b a' b' : Nat) (ha : a < 100) (ha' : a' < 100)
    (hb : b < 100) (hb' : b' < 100) (he : hmStr a b = hmStr a' b') :
    a = a' ∧ b = b' := by
  have e1 : parseNatDigits ((hmStr a b).take 2) = some a := by
    rw [hmStr_take2, parse_digit2 _ ha]
  have e2 : parseNatDigits ((hmStr a' b').take 2) = some a' := by
    rw [hmStr_take2, parse_digit2 _ ha']
  have e3 : parseNatDigits (((hmStr a b).drop 3).take 2) = some b := by
    rw [hmStr_drop3_take2, parse_digit2 _ hb]
  have e4 : parseNatDigits (((hmStr a' b').drop 3).take 2) = some b' := by
    rw [hmStr_drop3_take2, parse_digit2 _ hb']
  rw [he, e2] at e1
  rw [he, e4] at e3
  exact ⟨(Option.some.injEq _ _ ▸ e1).symm, (Option.some.injEq _ _ ▸ e3).symm⟩

lemma hmStr_ne_range (a b c d e f : Nat) :
    hmStr a b ≠ hmStr c d ++ '-' :: hmStr e f := by
  intro he
  have hlen := congrArg List.length he
  simp [hmStr, digit2] at hlen

namespace S3RecoverFiles

lemma rangos_loop_ok_true_iff (hm : Nat) (hs : List Str)
    (hw : ∀ h ∈ hs, ∃ sh sm eh em, wfRango h sh sm eh em) :
    rangos_loop hm hs = .ok true ↔
      ∃ h ∈ hs, ∃ sh sm eh em, wfRango h sh sm eh em ∧
        sh * 60 + sm ≤ hm ∧ hm ≤ eh * 60 + em := by
  induction hs with
  | nil => simp [rangos_loop]
  | cons h t ih =>
    have hwt : ∀ x ∈ t, ∃ sh sm eh em, wfRango x sh sm eh em :=
      fun x hx => hw x (List.mem_cons_of_mem h hx)
    rcases hw h (List.mem_cons_self h t) with ⟨sh, sm, eh, em, hsh, hsm, heh, hem, hshape⟩
    rcases hshape with ⟨hf, hehs, hems⟩ | hf
    · subst hf
      rw [rangos_step_single hm sh sm (by omega) (by omega) t]
      by_cases hcond : sh * 60 + sm ≤ hm ∧ hm ≤ sh * 60 + sm
      · rw [if_pos hcond]
        constructor
        · intro _
          exact ⟨hmStr sh sm, List.mem_cons_self _ _, sh, sm, sh, sm,
            ⟨hsh, hsm, hsh, hsm, Or.inl ⟨rfl, rfl, rfl⟩⟩, hcond.1, hcond.2⟩
        · intro _
          rfl
      · rw [if_neg hcond, ih hwt]
        constructor
        · rintro ⟨x, hx, sh', sm', eh', em', hwf', hb1, hb2⟩
          exact ⟨x, List.mem_cons_of_mem _ hx, sh', sm', eh', em', hwf', hb1, hb2⟩
        · rintro ⟨x, hx, sh', sm', eh', em', hwf', hb1, hb2⟩
          rcases List.mem_cons.mp hx with rfl | hx'
          · rcases hwf' with ⟨hsh', hsm', heh', hem', hshape'⟩
            rcases hshape' with ⟨hf', hehs', hems'⟩ | hf'
            · rcases hmStr_parse_eq sh sm sh' sm' (by omega) (by omega)
                (by omega) (by omega) hf' with ⟨rfl, rfl⟩
              subst hehs'
              subst hems'
              exact absurd ⟨hb1, hb2⟩ hcond
            · exact absurd hf' (hmStr_ne_range sh sm sh' sm' eh' em')
          · exact ⟨x, hx', sh', sm', eh', em', hwf', hb1, hb2⟩
    · subst hf
      rw [rangos_step_range hm sh sm eh em (by omega) (by omega) (by omega)
        (by omega) t]
      by_cases hcond : sh * 60 + sm ≤ hm ∧ hm ≤ eh * 60 + em
      · rw [if_pos hcond]
        constructor
        · intro _
          exact ⟨hmStr sh sm ++ '-' :: hmStr eh em, List.mem_cons_self _ _,
            sh, sm, eh, em, ⟨hsh, hsm, heh, hem, Or.inr rfl⟩, hcond.1, hcond.2⟩
        · intro _
          rfl
      · rw [if_neg hcond, ih hwt]
        constructor
        · rintro ⟨x, hx, sh', sm', eh', em', hwf', hb1, hb2⟩
          exact ⟨x, List.mem_cons_of_mem _ hx, sh', sm', eh', em', hwf', hb1, hb2⟩
        · rintro ⟨x, hx, sh', sm', eh', em', hwf', hb1, hb2⟩
          rcases List.mem_cons.mp hx with rfl | hx'
          · rcases hwf' with ⟨hsh', hsm', heh', hem', hshape'⟩
            rcases hshape' with ⟨hf', hehs', hems'⟩ | hf'
            · exact absurd hf'.symm (hmStr_ne_range sh' sm' sh sm eh em)
            · have h1 : hmStr sh sm = hmStr sh' sm' := by
                have := hf'
                have hlenS : (hmStr sh sm).length = 5 := by simp [hmStr, digit2]
                have hlenS' : (hmStr sh' sm').length = 5 := by simp [hmStr, digit2]
                exact List.append_inj_left this (by rw [hlenS, hlenS'])
              have h2 : ('-' :: hmStr eh em : Str) = '-' :: hmStr eh' em' := by
                have hlenS : (hmStr sh sm).length = 5 := by simp [hmStr, digit2]
                have hlenS' : (hmStr sh' sm').length = 5 := by simp [hmStr, digit2]
                exact List.append_inj_right hf' (by rw [hlenS, hlenS'])
              rcases hmStr_parse_eq sh sm sh' sm' (by omega) (by omega)
                (by omega) (by omega) h1 with ⟨rfl, rfl⟩
              have h3 : hmStr eh em = hmStr eh' em' := by
                injection h2
              rcases hmStr_parse_eq eh em eh' em' (by omega) (by omega)
                (by omega) (by omega) h3 with ⟨rfl, rfl⟩
              exact absurd ⟨hb1, hb2⟩ hcond
          · exact ⟨x, hx', sh', sm', eh', em', hwf', hb1, hb2⟩

lemma mem_filter_files_of_ok (fecha_jjj : Str) (horarios : List Str) :
    ∀ (files out : List Str),
      filter_files_by_time files fecha_jjj horarios = .ok out →
      ∀ a, (a ∈ out ↔ a ∈ files ∧
        file_decision a fecha_jjj horarios = .ok true) := by
  intro files
  induction files with
  | nil =>
    intro out hok a
    simp only [filter_files_by_time] at hok
    cases hok
    simp
  | cons f t ih =>
    intro out hok a
    simp only [filter_files_by_time] at hok
    cases hdec : file_decision f fecha_jjj horarios with
    | error e => rw [hdec] at hok; cases hok
    | ok b =>
      rw [hdec] at hok
      cases hrest : filter_files_by_time t fecha_jjj horarios with
      | error e => rw [hrest] at hok; cases hok
      | ok l =>
        rw [hrest] at hok
        simp only [Except.ok.injEq] at hok
        subst hok
        cases b with
        | true =>
          rw [if_pos rfl]
          simp only [List.mem_cons]
          constructor
          · rintro (rfl | hl)
            · exact ⟨Or.inl rfl, hdec⟩
            · rcases (ih l hrest a).mp hl with ⟨ht, hd⟩
              exact ⟨Or.inr ht, hd⟩
          · rintro ⟨rfl | ht, hd⟩
            · exact Or.inl rfl
            · exact Or.inr ((ih l hrest a).mpr ⟨ht, hd⟩)
        | false =>
          rw [if_neg (by simp)]
          constructor
          · intro hl
            rcases (ih l hrest a).mp hl with ⟨ht, hd⟩
            exact ⟨List.mem_cons_of_mem f ht, hd⟩
          · rintro ⟨hmem, hd⟩
            rcases List.mem_cons.mp hmem with rfl | ht
            · rw [hdec] at hd
              cases hd
            · exact (ih l hrest a).mpr ⟨ht, hd⟩

end S3RecoverFiles

/-- Claim C7: the S3 minute filter accepts a remote filename for a day key
if and only if the substring between the first `_s` and the first `_e`
yields an 11-character timestamp whose first seven characters `YYYYJJJ`
equal the day key and whose parsed `HH:MM` lies inside some requested time
range of that day, both endpoints inclusive.  Also: in a successful filter
call the kept files are exactly the accepted ones.  The hypothesis says
every requested range is a well-formed `HH:MM` or `HH:MM-HH:MM` string. -/
theorem C7_s3_minute_filter (nombre fecha_jjj : Str) (horarios : List Str)
    (hw : ∀ h ∈ horarios, ∃ sh sm eh em, wfRango h sh sm eh em) :
    (S3RecoverFiles.file_decision nombre fecha_jjj horarios = .ok true ↔
      ∃ s_idx e_idx, findSubIdx "_s".toList nombre = some s_idx ∧
        findSubIdx "_e".toList nombre = some e_idx ∧
        11 ≤ ((nombre.drop (s_idx + 2)).take (e_idx - (s_idx + 2))).length ∧
        ((nombre.drop (s_idx + 2)).take (e_idx - (s_idx + 2))).take 7 =
          fecha_jjj ∧
        ∃ hh mm,
          parseNatDigits ((((nombre.drop (s_idx + 2)).take
            (e_idx - (s_idx + 2))).drop 7).take 2) = some hh ∧
          parseNatDigits ((((nombre.drop (s_idx + 2)).take
            (e_idx - (s_idx + 2))).drop 9).take 2) = some mm ∧
          ∃ h ∈ horarios, ∃ sh sm eh em, wfRango h sh sm eh em ∧
            sh * 60 + sm ≤ hh * 60 + mm ∧ hh * 60 + mm ≤ eh * 60 + em)
    ∧ (∀ files out,
        S3RecoverFiles.filter_files_by_time files fecha_jjj horarios = .ok out →
        (nombre ∈ out ↔ nombre ∈ files ∧
          S3RecoverFiles.file_decision nombre fecha_jjj horarios = .ok true)) := by
  constructor
  · cases hs : findSubIdx "_s".toList nombre with
    | none =>
      constructor
      · intro hx
        exfalso
        simp only [S3RecoverFiles.file_decision, hs] at hx
        exact absurd hx (by simp)
      · rintro ⟨s_idx, e_idx, hss, _⟩
        cases hss
    | some s_idx =>
      cases he : findSubIdx "_e".toList nombre with
      | none =>
        constructor
        · intro hx
          exfalso
          simp only [S3RecoverFiles.file_decision, hs, he] at hx
          cases hx
        · rintro ⟨s', e', hss, hee, _⟩
          cases hee
      | some e_idx =>
        have htake7 : ((nombre.drop (s_idx + 2)).take (e_idx - (s_idx + 2))).take 7 =
            ((nombre.drop (s_idx + 2)).take (e_idx - (s_idx + 2))).take 4 ++
            (((nombre.drop (s_idx + 2)).take (e_idx - (s_idx + 2))).drop 4).take 3 := by
          rw [show (7 : Nat) = 4 + 3 from rfl, List.take_add]
        simp only [S3RecoverFiles.file_decision, hs, he]
        by_cases hlen :
            ((nombre.drop (s_idx + 2)).take (e_idx - (s_idx + 2))).length < 11
        · rw [if_pos hlen]
          constructor
          · intro hx
            cases hx
          · rintro ⟨s', e', hss, hee, hlen', _⟩
            cases hss
            cases hee
            omega
        · rw [if_neg hlen]
          by_cases hfec :
              ((nombre.drop (s_idx + 2)).take (e_idx - (s_idx + 2))).take 4 ++
              (((nombre.drop (s_idx + 2)).take (e_idx - (s_idx + 2))).drop 4).take 3 ≠
                fecha_jjj
          · rw [if_pos hfec]
            constructor
            · intro hx
              cases hx
            · rintro ⟨s', e', hss, hee, _, hfec', _⟩
              cases hss
              cases hee
              rw [htake7] at hfec'
              exact absurd hfec' hfec
          · rw [if_neg hfec]
            push_neg at hfec
            cases hhh : parseNatDigits
                ((((nombre.drop (s_idx + 2)).take (e_idx - (s_idx + 2))).drop 7).take 2) with
            | none =>
              constructor
              · intro hx
                cases hmm2 : parseNatDigits
                    ((((nombre.drop (s_idx + 2)).take (e_idx - (s_idx + 2))).drop 9).take 2) <;>
                  simp [hhh, hmm2] at hx
              · rintro ⟨s', e', hss, hee, _, _, hh, mm, hph, _⟩
                cases hss
                cases hee
                rw [hhh] at hph
                cases hph
            | some hh =>
              cases hmm2 : parseNatDigits
                  ((((nombre.drop (s_idx + 2)).take (e_idx - (s_idx + 2))).drop 9).take 2) with
              | none =>
                constructor
                · intro hx
                  simp [hhh, hmm2] at hx
                · rintro ⟨s', e', hss, hee, _, _, hh', mm', _, hpm, _⟩
                  cases hss
                  cases hee
                  rw [hmm2] at hpm
                  cases hpm
              | some mm =>
                simp only [hhh, hmm2]
                rw [S3RecoverFiles.rangos_loop_ok_true_iff _ _ hw]
                constructor
                · rintro ⟨h, hhor, sh, sm, eh, em, hwf, hb1, hb2⟩
                  exact ⟨s_idx, e_idx, rfl, rfl, by omega, by rw [htake7]; exact hfec,
                    hh, mm, hhh, hmm2, h, hhor, sh, sm, eh, em, hwf, hb1, hb2⟩
                · rintro ⟨s', e', hss, hee, _, _, hh', mm', hph, hpm, h, hhor,
                    sh, sm, eh, em, hwf, hb1, hb2⟩
                  cases hss
                  cases hee
                  rw [hhh] at hph
                  rw [hmm2] at hpm
                  cases hph
                  cases hpm
                  exact ⟨h, hhor, sh, sm, eh, em, hwf, hb1, hb2⟩
  · intro files out hok
    exact S3RecoverFiles.mem_filter_files_of_ok fecha_jjj horarios files out hok nombre

/-- Witness for C7: a remote file at 19:05 of day 2021121 is accepted for
the range 19:00-19:17. -/
theorem C7_s3_minute_filter_witness :
    S3RecoverFiles.file_decision "X_s20211211905000_e0.nc".toList
      "2021121".toList ["19:00-19:17".toList] = .ok true :=
  ((C7_s3_minute_filter "X_s20211211905000_e0.nc".toList "2021121".toList
      ["19:00-19:17".toList]
      (by
        intro h hh
        rw [List.mem_singleton] at hh
        subst hh
        exact ⟨19, 0, 19, 17, by decide, by decide, by decide, by decide,
          Or.inr (by decide)⟩)).1).mpr
    ⟨1, 17, by decide, by decide, by decide, by decide, 19, 5, by decide,
      by decide, "19:00-19:17".toList, List.mem_singleton.mpr rfl,
      19, 0, 19, 17, ⟨by decide, by decide, by decide, by decide,
        Or.inr (by decide)⟩, by decide, by decide⟩

/-- Gregorian leap-year rule (as Python's `datetime` uses). -/
def isLeap (y : Nat) : Bool :=
  (decide (y % 4 = 0) && decide (y % 100 ≠ 0)) || decide (y % 400 = 0)

def daysInYear (y : Nat) : Nat := if isLeap y then 366 else 365

def daysInMonth (y m : Nat) : Nat :=
  if m = 2 then (if isLeap y then 29 else 28)
  else if m = 4 ∨ m = 6 ∨ m = 9 ∨ m = 11 then 30
  else 31

/-- Convert a day-of-year to (month, day), walking the months.  Twelve
steps of fuel suffice for any in-range input. -/
def jjjToMDAux (y : Nat) : Nat → Nat → Nat → Nat × Nat
  | 0, m, d => (m, d)
  | fuel + 1, m, d =>
    if d ≤ daysInMonth y m then (m, d)
    else jjjToMDAux y fuel (m + 1) (d - daysInMonth y m)

def jjjToMD (y jjj : Nat) : Nat × Nat := jjjToMDAux y 12 1 jjj

/-- `datetime.strptime(ts, "%Y%j%H%M")` on the 11-character slice the
recovery builder extracts: 4-digit year, 3-digit day-of-year validated
against the year, hour and minute validated.  Python's `strptime` also
accepts shorter digit runs through regex backtracking; the claim theorems
quantify over the 11-character form the archive names carry. -/
def strptime_YjHM (s : Str) : Option (Nat × Nat × Nat × Nat) :=
  if s.length = 11 ∧ s.all (fun c => c.isDigit) then
    let y := valDigits (s.take 4)
    let jjj := valDigits ((s.drop 4).take 3)
    let hh := valDigits ((s.drop 7).take 2)
    let mm := valDigits ((s.drop 9).take 2)
    if 1 ≤ y ∧ 1 ≤ jjj ∧ jjj ≤ daysInYear y ∧ hh < 24 ∧ mm < 60 then
      some (y, jjj, hh, mm)
    else none
  else none

/-- `fecha_fallida_dt.strftime("%Y%m%d")`. -/
def fecha_ymd_of (y jjj : Nat) : Str :=
  pad4 y ++ pad2 (jjjToMD y jjj).1 ++ pad2 (jjjToMD y jjj).2

/-- `archivo_fallido.name.split('-s')[1].split('.')[0][:11]` — `none` models
the `IndexError` when the name has no `-s`. -/
def failed_target_ts (nombre : Str) : Option Str :=
  (afterFirstSub "-s".toList nombre).map (fun rest =>
    (upToSub ".".toList (upToSub "-s".toList rest)).take 11)

/-- Timestamp extraction plus `strptime` of one failed target. -/
def failed_target_dt (nombre : Str) : Option (Nat × Nat × Nat × Nat) :=
  (failed_target_ts nombre).bind strptime_YjHM

/-- `datetime.strptime(s, "%H:%M").time()` on a canonical 5-character
range endpoint (Python also accepts 1-digit hours; normalized requests
always carry two digits). -/
def strptime_HM (s : Str) : Option (Nat × Nat) :=
  match s with
  | [h1, h2, c, m1, m2] =>
    if h1.isDigit ∧ h2.isDigit ∧ c = ':' ∧ m1.isDigit ∧ m2.isDigit then
      let hh := digitVal h1 * 10 + digitVal h2
      let mm := digitVal m1 * 10 + digitVal m2
      if hh < 24 ∧ mm < 60 then some (hh, mm) else none
    else none
  | _ => none

/-- Python `time` comparison: lexicographic on (hour, minute). -/
def timeLeB (a b : Nat × Nat) : Bool :=
  decide (a.1 < b.1) || (decide (a.1 = b.1) && decide (a.2 ≤ b.2))

/-- The inner range loop of `_build_recovery_query`: find the first range of
the key containing the failed time; a `strptime` failure propagates
(`Except.error`) and is caught by the per-target handler. -/
def recovery_rangos_loop (t : Nat × Nat) : List Str → Except Unit (Option Str)
  | [] => .ok none
  | horario_rango :: rest =>
    let partes := splitOnChar '-' horario_rango
    let inicio_str := partes.headD []
    let fin_str := if 1 < partes.length then partes.getD 1 [] else horario_rango
    match strptime_HM inicio_str, strptime_HM fin_str with
    | some inicio_t, some fin_t =>
      if timeLeB inicio_t t && timeLeB t fin_t then .ok (some horario_rango)
      else recovery_rangos_loop t rest
    | _, _ => .error ()

/-- The key loop of `_build_recovery_query` (its `for ... else` flow): take
the first original date key whose `[start, end]` span contains the failed
date (string comparison) and that has a range containing the failed time;
keys whose span matches but whose ranges do not are skipped. -/
def recovery_keys_loop (t : Nat × Nat) (ymd : Str) :
    List (Str × List Str) → Except Unit (Option (Str × Str))
  | [] => .ok none
  | (fecha_key, horarios_list) :: rest =>
    let partes := splitOnChar '-' fecha_key
    let start_date_str := partes.headD []
    let end_date_str := partes.getLast?.getD []
    if pyStrLe start_date_str ymd && pyStrLe ymd end_date_str then
      match recovery_rangos_loop t horarios_list with
      | .error e => .error e
      | .ok (some rango) => .ok (some (fecha_key, rango))
      | .ok none => recovery_keys_loop t ymd rest
    else recovery_keys_loop t ymd rest

/-- One failed target's contribution: parse its timestamp and find the
first (key, range) pair; any `ValueError`/`IndexError` in the per-target
`try` makes the target contribute nothing. -/
def match_failed_target (original_fechas : List (Str × List Str))
    (nombre : Str) : Option (Str × Str) :=
  match failed_target_dt nombre with
  | none => none
  | some (y, jjj, hh, mm) =>
    match recovery_keys_loop (hh, mm) (fecha_ymd_of y jjj) original_fechas with
    | .error _ => none
    | .ok r => r

/-- `fechas_fallidas[key].append(rango)` with the dedup membership test. -/
def addMatch (acc : List (Str × List Str)) (k r : Str) : List (Str × List Str) :=
  match acc with
  | [] => [(k, [r])]
  | (k0, rs) :: rest =>
    if k0 = k then
      (if r ∈ rs then (k0, rs) :: rest else (k0, rs ++ [r]) :: rest)
    else (k0, rs) :: addMatch rest k r

def fechas_step (original_fechas : List (Str × List Str))
    (acc : List (Str × List Str)) (nombre : Str) : List (Str × List Str) :=
  match match_failed_target original_fechas nombre with
  | none => acc
  | some (k, r) => addMatch acc k r

/-- The accumulation loop of `_build_recovery_query` over the failed
targets, in order. -/
def fechas_fallidas (original_fechas : List (Str × List Str))
    (objetivos_fallidos : List Str) : List (Str × List Str) :=
  objetivos_fallidos.foldl (fechas_step original_fechas) []

/-- The original request, as the recovery builder consumes it: its `fechas`
mapping (insertion-ordered), `creado_por`, and the remaining payload fields
carried verbatim. -/
structure OriginalRequest where
  fechas : List (Str × List Str)
  creado_por : Option Str
  otros : List (Str × Str)
deriving DecidableEq

/-- The recovery request payload. -/
structure RecoveryQuery where
  fechas : List (Str × List Str)
  creado_por : Option Str
  descripcion : Option Str
  otros : List (Str × Str)
deriving DecidableEq

/-- `RecoverFiles._build_recovery_query`. -/
def _build_recovery_query (consulta_id : Str) (objetivos_fallidos : List Str)
    (orig : OriginalRequest) : Option RecoveryQuery :=
  if objetivos_fallidos = [] then none
  else
    let ff := fechas_fallidas orig.fechas objetivos_fallidos
    if ff ≠ [] then
      some { fechas := ff, creado_por := none,
             descripcion := some
               ("Consulta de recuperación para la solicitud original ".toList ++
                 consulta_id),
             otros := orig.otros }
    else none

/-- Dictionary lookup on the insertion-ordered `fechas` map. -/
def lookupFechas (m : List (Str × List Str)) (k : Str) : Option (List Str) :=
  (m.find? (fun kv => decide (kv.1 = k))).map Prod.snd

lemma lookupFechas_cons_self (k : Str) (rs : List Str)
    (rest : List (Str × List Str)) :
    lookupFechas ((k, rs) :: rest) k = some rs := by
  simp only [lookupFechas]
  rw [List.find?_cons_of_pos _ (by simp)]
  rfl

lemma lookupFechas_cons_ne (k1 k : Str) (h : k1 ≠ k) (rs1 : List Str)
    (rest : List (Str × List Str)) :
    lookupFechas ((k1, rs1) :: rest) k = lookupFechas rest k := by
  simp only [lookupFechas]
  rw [List.find?_cons_of_neg _ (by simpa using h)]

lemma mem_lookup_addMatch (k0 r0 : Str) :
    ∀ (acc : List (Str × List Str)) (k r : Str),
      (∃ rs, lookupFechas (addMatch acc k0 r0) k = some rs ∧ r ∈ rs) ↔
        ((∃ rs, lookupFechas acc k = some rs ∧ r ∈ rs) ∨ (k = k0 ∧ r = r0)) := by
  intro acc
  induction acc with
  | nil =>
    intro k r
    by_cases hk : k0 = k
    · subst hk
      rw [show addMatch [] k0 r0 = [(k0, [r0])] from rfl,
        lookupFechas_cons_self]
      simp [lookupFechas]
    · rw [show addMatch [] k0 r0 = [(k0, [r0])] from rfl,
        lookupFechas_cons_ne k0 k hk]
      constructor
      · intro h
        exact Or.inl h
      · rintro (h | ⟨hkk, _⟩)
        · exact h
        · exact absurd hkk.symm hk
  | cons p rest ih =>
    intro k r
    cases p with
    | mk k1 rs1 =>
      by_cases h10 : k1 = k0
      · subst h10
        by_cases hk : k1 = k
        · subst hk
          by_cases hr : r0 ∈ rs1
          · rw [show addMatch ((k1, rs1) :: rest) k1 r0 =
                (k1, rs1) :: rest by simp [addMatch, hr],
              lookupFechas_cons_self]
            constructor
            · intro h
              exact Or.inl h
            · rintro (h | ⟨_, rfl⟩)
              · exact h
              · exact ⟨rs1, rfl, hr⟩
          · rw [show addMatch ((k1, rs1) :: rest) k1 r0 =
                (k1, rs1 ++ [r0]) :: rest by simp [addMatch, hr],
              lookupFechas_cons_self k1 (rs1 ++ [r0]) rest,
              lookupFechas_cons_self k1 rs1 rest]
            constructor
            · rintro ⟨rs, hrs, hmem⟩
              have hrs2 : rs1 ++ [r0] = rs := by injection hrs
              subst hrs2
              rcases List.mem_append.mp hmem with h | h
              · exact Or.inl ⟨rs1, rfl, h⟩
              · exact Or.inr ⟨rfl, List.mem_singleton.mp h⟩
            · rintro (⟨rs, hrs, hmem⟩ | ⟨_, rfl⟩)
              · have hrs2 : rs1 = rs := by injection hrs
                subst hrs2
                exact ⟨rs1 ++ [r0], rfl, List.mem_append_left _ hmem⟩
              · exact ⟨rs1 ++ [r], rfl,
                  List.mem_append_right _ (List.mem_singleton.mpr rfl)⟩
        · rw [show addMatch ((k1, rs1) :: rest) k1 r0 =
              (if r0 ∈ rs1 then (k1, rs1) :: rest
               else (k1, rs1 ++ [r0]) :: rest) by simp [addMatch]]
          by_cases hr : r0 ∈ rs1
          · rw [if_pos hr, lookupFechas_cons_ne k1 k hk]
            constructor
            · intro h
              exact Or.inl h
            · rintro (h | ⟨hkk, _⟩)
              · exact h
              · exact absurd hkk.symm hk
          · rw [if_neg hr, lookupFechas_cons_ne k1 k hk (rs1 ++ [r0]) rest,
              lookupFechas_cons_ne k1 k hk rs1 rest]
            constructor
            · intro h
              exact Or.inl h
            · rintro (h | ⟨hkk, _⟩)
              · exact h
              · exact absurd hkk.symm hk
      · rw [show addMatch ((k1, rs1) :: rest) k0 r0 =
            (k1, rs1) :: addMatch rest k0 r0 by simp [addMatch, h10]]
        by_cases hk : k1 = k
        · subst hk
          rw [lookupFechas_cons_self, lookupFechas_cons_self]
          constructor
          · intro h
            exact Or.inl h
          · rintro (h | ⟨rfl, _⟩)
            · exact h
            · exact absurd rfl h10
        · rw [lookupFechas_cons_ne k1 k hk rs1 (addMatch rest k0 r0),
            lookupFechas_cons_ne k1 k hk rs1 rest]
          exact ih k r

lemma mem_fechas_fold (original_fechas : List (Str × List Str)) :
    ∀ (objetivos : List Str) (acc : List (Str × List Str)) (k r : Str),
      (∃ rs, lookupFechas (objetivos.foldl (fechas_step original_fechas) acc) k =
          some rs ∧ r ∈ rs) ↔
        ((∃ rs, lookupFechas acc k = some rs ∧ r ∈ rs) ∨
          ∃ f ∈ objetivos, match_failed_target original_fechas f = some (k, r)) := by
  intro objetivos
  induction objetivos with
  | nil =>
    intro acc k r
    simp
  | cons f t ih =>
    intro acc k r
    simp only [List.foldl_cons]
    rw [ih]
    cases hm : match_failed_target original_fechas f with
    | none =>
      rw [show fechas_step original_fechas acc f = acc by
        simp [fechas_step, hm]]
      constructor
      · rintro (h | ⟨f2, hf2, hm2⟩)
        · exact Or.inl h
        · exact Or.inr ⟨f2, List.mem_cons_of_mem f hf2, hm2⟩
      · rintro (h | ⟨f2, hf2, hm2⟩)
        · exact Or.inl h
        · rcases List.mem_cons.mp hf2 with rfl | hf2t
          · rw [hm] at hm2
            cases hm2
          · exact Or.inr ⟨f2, hf2t, hm2⟩
    | some p =>
      cases p with
      | mk k0 r0 =>
        rw [show fechas_step original_fechas acc f = addMatch acc k0 r0 by
          simp [fechas_step, hm]]
        rw [mem_lookup_addMatch]
        constructor
        · rintro ((h | ⟨rfl, rfl⟩) | ⟨f2, hf2, hm2⟩)
          · exact Or.inl h
          · exact Or.inr ⟨f, List.mem_cons_self f t, hm⟩
          · exact Or.inr ⟨f2, List.mem_cons_of_mem f hf2, hm2⟩
        · rintro (h | ⟨f2, hf2, hm2⟩)
          · exact Or.inl (Or.inl h)
          · rcases List.mem_cons.mp hf2 with rfl | hf2t
            · rw [hm] at hm2
              simp only [Option.some.injEq, Prod.mk.injEq] at hm2
              exact Or.inl (Or.inr ⟨hm2.1.symm, hm2.2.symm⟩)
            · exact Or.inr ⟨f2, hf2t, hm2⟩

lemma addMatch_ne_nil (acc : List (Str × List Str)) (k r : Str) :
    addMatch acc k r ≠ [] := by
  cases acc with
  | nil => simp [addMatch]
  | cons p rest =>
    cases p with
    | mk k0 rs =>
      simp only [addMatch]
      split_ifs <;> simp

lemma fechas_fold_ne_nil (original_fechas : List (Str × List Str)) :
    ∀ (l : List Str) (acc : List (Str × List Str)), acc ≠ [] →
      l.foldl (fechas_step original_fechas) acc ≠ [] := by
  intro l
  induction l with
  | nil => intro acc h; exact h
  | cons f t ih =>
    intro acc h
    simp only [List.foldl_cons]
    apply ih
    unfold fechas_step
    cases hm : match_failed_target original_fechas f with
    | none => exact h
    | some p => exact addMatch_ne_nil acc p.1 p.2

lemma fechas_fallidas_eq_nil_iff (original_fechas : List (Str × List Str)) :
    ∀ (objetivos : List Str),
      fechas_fallidas original_fechas objetivos = [] ↔
        ∀ f ∈ objetivos, match_failed_target original_fechas f = none := by
  have key : ∀ (l : List Str),
      l.foldl (fechas_step original_fechas) [] = [] ↔
        ∀ f ∈ l, match_failed_target original_fechas f = none := by
    intro l
    induction l with
    | nil => simp
    | cons f t ih =>
      simp only [List.foldl_cons]
      cases hm : match_failed_target original_fechas f with
      | none =>
        rw [show fechas_step original_fechas [] f = [] by simp [fechas_step, hm]]
        rw [ih]
        constructor
        · intro h g hg
          rcases List.mem_cons.mp hg with rfl | hgt
          · exact hm
          · exact h g hgt
        · intro h g hg
          exact h g (List.mem_cons_of_mem f hg)
      | some p =>
        have hne : fechas_step original_fechas [] f ≠ [] := by
          simp [fechas_step, hm]
          exact addMatch_ne_nil [] p.1 p.2
        constructor
        · intro h
          exact absurd h (fechas_fold_ne_nil original_fechas t _ hne)
        · intro h
          have := h f (List.mem_cons_self f t)
          rw [hm] at this
          cases this
  intro objetivos
  exact key objetivos

lemma recovery_rangos_loop_sound (t : Nat × Nat) :
    ∀ (hs : List Str) (r : Str),
      recovery_rangos_loop t hs = .ok (some r) →
      r ∈ hs ∧ ∃ it ft,
        strptime_HM ((splitOnChar '-' r).headD []) = some it ∧
        strptime_HM (if 1 < (splitOnChar '-' r).length then
          (splitOnChar '-' r).getD 1 [] else r) = some ft ∧
        timeLeB it t = true ∧ timeLeB t ft = true := by
  intro hs
  induction hs with
  | nil =>
    intro r h
    simp [recovery_rangos_loop] at h
  | cons h0 rest ih =>
    intro r h
    simp only [recovery_rangos_loop] at h
    cases hp1 : strptime_HM ((splitOnChar '-' h0).headD []) with
    | none =>
      simp only [hp1] at h
      cases h
    | some it =>
      cases hp2 : strptime_HM (if 1 < (splitOnChar '-' h0).length then
          (splitOnChar '-' h0).getD 1 [] else h0) with
      | none =>
        simp only [hp1, hp2] at h
        cases h
      | some ft =>
        simp only [hp1, hp2] at h
        by_cases hc : timeLeB it t && timeLeB t ft
        · rw [if_pos hc] at h
          simp only [Except.ok.injEq, Option.some.injEq] at h
          subst h
          rcases Bool.and_eq_true_iff.mp hc with ⟨hc1, hc2⟩
          exact ⟨List.mem_cons_self _ _, it, ft, hp1, hp2, hc1, hc2⟩
        · rw [if_neg hc] at h
          rcases ih r h with ⟨hmem, hrest⟩
          exact ⟨List.mem_cons_of_mem _ hmem, hrest⟩

lemma recovery_keys_loop_sound (t : Nat × Nat) (ymd : Str) :
    ∀ (fechas : List (Str × List Str)) (k r : Str),
      recovery_keys_loop t ymd fechas = .ok (some (k, r)) →
      ∃ rs, (k, rs) ∈ fechas ∧ r ∈ rs ∧
        pyStrLe ((splitOnChar '-' k).headD []) ymd = true ∧
        pyStrLe ymd ((splitOnChar '-' k).getLast?.getD []) = true ∧
        ∃ it ft,
          strptime_HM ((splitOnChar '-' r).headD []) = some it ∧
          strptime_HM (if 1 < (splitOnChar '-' r).length then
            (splitOnChar '-' r).getD 1 [] else r) = some ft ∧
          timeLeB it t = true ∧ timeLeB t ft = true := by
  intro fechas
  induction fechas with
  | nil =>
    intro k r h
    simp [recovery_keys_loop] at h
  | cons p rest ih =>
    intro k r h
    cases p with
    | mk fecha_key horarios_list =>
      simp only [recovery_keys_loop] at h
      by_cases hd : pyStrLe ((splitOnChar '-' fecha_key).headD []) ymd &&
          pyStrLe ymd ((splitOnChar '-' fecha_key).getLast?.getD [])
      · rw [if_pos hd] at h
        cases hr : recovery_rangos_loop t horarios_list with
        | error e =>
          rw [hr] at h
          cases h
        | ok o =>
          rw [hr] at h
          cases o with
          | none =>
            rcases ih k r h with ⟨rs, hmem, hrest⟩
            exact ⟨rs, List.mem_cons_of_mem _ hmem, hrest⟩
          | some rango =>
            simp only [Except.ok.injEq, Option.some.injEq, Prod.mk.injEq] at h
            rcases h with ⟨rfl, rfl⟩
            rcases recovery_rangos_loop_sound t horarios_list rango hr with
              ⟨hmem, hrest⟩
            rcases Bool.and_eq_true_iff.mp hd with ⟨hd1, hd2⟩
            exact ⟨horarios_list, List.mem_cons_self _ _, hmem, hd1, hd2, hrest⟩
      · rw [if_neg hd] at h
        rcases ih k r h with ⟨rs, hmem, hrest⟩
        exact ⟨rs, List.mem_cons_of_mem _ hmem, hrest⟩

/-- Claim C3 fails on the code: with a nonempty failed set whose single
target has no parseable `-s` timestamp, `_build_recovery_query` returns
`None` even though the failed set is nonempty, contradicting
"null exactly when the failed-target set is empty". -/
theorem C3_counterexample :
    _build_recovery_query "Q1".toList ["badfile.tgz".toList]
        ⟨[("20231026".toList, ["12:00".toList])], some "u".toList, []⟩ = none
    ∧ (["badfile.tgz".toList] : List Str) ≠ [] := by
  exact ⟨rfl, by decide⟩

/-- Claim C3 (amended): `consulta_recuperacion` is null exactly when the
failed-target set is empty or no failed target's `-s` timestamp maps into an
original date key and range; otherwise it equals the original request with
`creado_por` removed, the descriptive `descripcion` added, the other fields
kept, and `fechas` holding, deduplicated, for each failed target the first
original key whose span contains the target's `YYYYMMDD` and has a range
containing its `HH:MM`, with that key's first matching range (third
conjunct: every produced pair really is an original key/range pair
containing the target's date and time). -/
theorem C3_recovery_query_amended (consulta_id : Str) (objetivos : List Str)
    (orig : OriginalRequest) :
    (_build_recovery_query consulta_id objetivos orig = none ↔
      (objetivos = [] ∨
        ∀ f ∈ objetivos, match_failed_target orig.fechas f = none))
    ∧ (∀ q, _build_recovery_query consulta_id objetivos orig = some q →
        q.creado_por = none ∧
        q.descripcion = some
          ("Consulta de recuperación para la solicitud original ".toList ++
            consulta_id) ∧
        q.otros = orig.otros ∧
        (∀ k r, (∃ rs, lookupFechas q.fechas k = some rs ∧ r ∈ rs) ↔
          ∃ f ∈ objetivos, match_failed_target orig.fechas f = some (k, r)))
    ∧ (∀ f k r, match_failed_target orig.fechas f = some (k, r) →
        ∃ y jjj hh mm, failed_target_dt f = some (y, jjj, hh, mm) ∧
        ∃ rs, (k, rs) ∈ orig.fechas ∧ r ∈ rs ∧
          pyStrLe ((splitOnChar '-' k).headD []) (fecha_ymd_of y jjj) = true ∧
          pyStrLe (fecha_ymd_of y jjj)
            ((splitOnChar '-' k).getLast?.getD []) = true ∧
          ∃ it ft,
            strptime_HM ((splitOnChar '-' r).headD []) = some it ∧
            strptime_HM (if 1 < (splitOnChar '-' r).length then
              (splitOnChar '-' r).getD 1 [] else r) = some ft ∧
            timeLeB it (hh, mm) = true ∧ timeLeB (hh, mm) ft = true) := by
  refine ⟨?_, ?_, ?_⟩
  · by_cases hobj : objetivos = []
    · subst hobj
      simp [_build_recovery_query]
    · unfold _build_recovery_query
      rw [if_neg hobj]
      by_cases hff : fechas_fallidas orig.fechas objetivos = []
      · rw [if_neg (by simpa using hff)]
        simp only [true_iff]
        exact Or.inr ((fechas_fallidas_eq_nil_iff orig.fechas objetivos).mp hff)
      · rw [if_pos (by simpa using hff)]
        simp only [reduceCtorEq, false_iff, not_or]
        refine ⟨hobj, ?_⟩
        intro hall
        exact hff ((fechas_fallidas_eq_nil_iff orig.fechas objetivos).mpr hall)
  · intro q hq
    unfold _build_recovery_query at hq
    by_cases hobj : objetivos = []
    · rw [if_pos hobj] at hq
      cases hq
    · rw [if_neg hobj] at hq
      by_cases hff : fechas_fallidas orig.fechas objetivos = []
      · rw [if_neg (by simpa using hff)] at hq
        cases hq
      · rw [if_pos (by simpa using hff)] at hq
        simp only [Option.some.injEq] at hq
        subst hq
        refine ⟨rfl, rfl, rfl, ?_⟩
        intro k r
        have := mem_fechas_fold orig.fechas objetivos [] k r
        unfold fechas_fallidas
        rw [this]
        simp [lookupFechas]
  · intro f k r hm
    unfold match_failed_target at hm
    cases hdt : failed_target_dt f with
    | none =>
      simp only [hdt] at hm
      cases hm
    | some quad =>
      rcases quad with ⟨y, jjj, hh, mm⟩
      simp only [hdt] at hm
      cases hkl : recovery_keys_loop (hh, mm) (fecha_ymd_of y jjj) orig.fechas with
      | error e =>
        rw [hkl] at hm
        cases hm
      | ok o =>
        rw [hkl] at hm
        cases o with
        | none => cases hm
        | some p =>
          simp only [Option.some.injEq] at hm
          rw [hm] at hkl
          rcases recovery_keys_loop_sound (hh, mm) (fecha_ymd_of y jjj)
            orig.fechas k r hkl with ⟨rs, hmem, hrs, hd1, hd2, hrest⟩
          exact ⟨y, jjj, hh, mm, rfl, rs, hmem, hrs, hd1, hd2, hrest⟩

/-- Witness for the amended C3: a failed target whose name carries no `-s`
timestamp maps nowhere, so the recovery query is null. -/
theorem C3_recovery_query_amended_witness :
    _build_recovery_query "Q2".toList ["nota-timestamp.nc".toList]
      ⟨[("20231026".toList, ["12:00-13:00".toList])], none, []⟩ = none :=
  (C3_recovery_query_amended "Q2".toList ["nota-timestamp.nc".toList]
      ⟨[("20231026".toList, ["12:00-13:00".toList])], none, []⟩).1.mpr
    (Or.inr (by decide))

/-- `datetime.strptime(s, "%Y%m%d")` with `datetime`'s own validity checks
(month and day-in-month against the Gregorian calendar, year at least 1).
As with `strptime_YjHM`, the embedding reads the canonical fixed-width form
(4+2+2 digits); Python's strptime tolerates some narrower matches. -/
def parse_YMD (s : Str) : Option (Nat × Nat × Nat) :=
  if s.length = 8 ∧ s.all (fun c => c.isDigit) then
    let y := valDigits (s.take 4)
    let m := valDigits ((s.drop 4).take 2)
    let d := valDigits ((s.drop 6).take 2)
    if 1 ≤ y ∧ 1 ≤ m ∧ m ≤ 12 ∧ 1 ≤ d ∧ d ≤ daysInMonth y m then some (y, m, d)
    else none
  else none

/-- Python `datetime` comparison on dates: lexicographic (year, month, day). -/
def dateLeB (a b : Nat × Nat × Nat) : Bool :=
  decide (a.1 < b.1) ||
  (decide (a.1 = b.1) &&
    (decide (a.2.1 < b.2.1) ||
      (decide (a.2.1 = b.2.1) && decide (a.2.2 ≤ b.2.2))))

/-- `current_date + timedelta(days=1)`. -/
def nextDay (d : Nat × Nat × Nat) : Nat × Nat × Nat :=
  if d.2.2 < daysInMonth d.1 d.2.1 then (d.1, d.2.1, d.2.2 + 1)
  else if d.2.1 < 12 then (d.1, d.2.1 + 1, 1)
  else (d.1 + 1, 1, 1)

def daysBeforeMonth (y m : Nat) : Nat :=
  ((List.range (m - 1)).map (fun i => daysInMonth y (i + 1))).sum

/-- Proleptic-Gregorian day number, used only to bound the fuel of the
date-range while-loop below. -/
def rataDie (d : Nat × Nat × Nat) : Nat :=
  (d.1 - 1) * 365 + ((d.1 - 1) / 4 - (d.1 - 1) / 100 + (d.1 - 1) / 400) +
    daysBeforeMonth d.1 d.2.1 + d.2.2

/-- The `while current_date <= end_date` collection loop of
`estimate_file_count`, with fuel covering the day span. -/
def dateRangeLoop : Nat → (Nat × Nat × Nat) → (Nat × Nat × Nat) →
    List (Nat × Nat × Nat)
  | 0, _, _ => []
  | fuel + 1, cur, e =>
    if dateLeB cur e then cur :: dateRangeLoop fuel (nextDay cur) e else []

def date_range (s e : Nat × Nat × Nat) : List (Nat × Nat × Nat) :=
  dateRangeLoop (rataDie e + 1 - rataDie s) s e

/-- Date-key expansion in `estimate_file_count`: a `YYYYMMDD-YYYYMMDD` key
expands day by day; a plain key is a single day; a `ValueError` (bad parse
or a key that does not split into exactly two dates) skips the key. -/
def expand_fecha_key (fecha_key : Str) : List (Nat × Nat × Nat) :=
  match splitOnChar '-' fecha_key with
  | [single] =>
    match parse_YMD single with
    | some d => [d]
    | none => []
  | [a, b] =>
    match parse_YMD a, parse_YMD b with
    | some s, some e => date_range s e
    | _, _ => []
  | _ => []

/-- `strptime(parts[0])` and `strptime(parts[1]) if len(parts) > 1 else
start_t` on one time-range string; `none` models the uncaught
`ValueError`. -/
def parse_horario (horario_str : Str) : Option ((Nat × Nat) × (Nat × Nat)) :=
  let parts := splitOnChar '-' horario_str
  match strptime_HM (parts.headD []) with
  | none => none
  | some start_t =>
    if 1 < parts.length then
      match strptime_HM (parts.getD 1 []) with
      | none => none
      | some end_t => some (start_t, end_t)
    else some (start_t, start_t)

namespace SatelliteConfigGOES

/-- `GOES_PERIODICITY["L1b"]["fd"]`: every band at 10 minutes. -/
def PERIODICITY_L1b_fd : List (Str × Nat) := VALID_BANDAS.map (fun b => (b, 10))

/-- `GOES_PERIODICITY["L1b"]["conus"]`: every band at 5 minutes. -/
def PERIODICITY_L1b_conus : List (Str × Nat) :=
  VALID_BANDAS.map (fun b => (b, 5))

/-- `GOES_PERIODICITY["L2"]["fd"]`. -/
def PERIODICITY_L2_fd : List (Str × Nat) :=
  [("ACHA", 10), ("ACM", 10), ("ACTP", 10), ("AOD", 10), ("CMIP", 10),
   ("DMW", 60), ("LST", 10), ("Rainfall", 10), ("SST", 60), ("TPW", 10),
   ("CODD", 10), ("CODN", 10), ("CPSD", 10), ("CPSN", 10), ("CTP", 10),
   ("ACHT", 10), ("DMWV", 60), ("AVIATION_FOG", 10), ("ADP", 10)].map
    (fun p => (p.1.toList, p.2))

/-- `GOES_PERIODICITY["L2"]["conus"]`. -/
def PERIODICITY_L2_conus : List (Str × Nat) :=
  [("ACHA", 5), ("ACM", 5), ("ACTP", 5), ("AOD", 5), ("CMIP", 5),
   ("DMW", 15), ("LST", 5), ("Rainfall", 5), ("SST", 60), ("TPW", 5),
   ("CODD", 5), ("CODN", 5), ("CPSD", 5), ("CPSN", 5), ("CTP", 5),
   ("ACHT", 5), ("DMWV", 15), ("AVIATION_FOG", 5), ("ADP", 5)].map
    (fun p => (p.1.toList, p.2))

def lookupNat (m : List (Str × Nat)) (k : Str) : Option Nat :=
  (m.find? (fun kv => decide (kv.1 = k))).map Prod.snd

/-- `get_periodicity`: table lookup with a `KeyError` fallback of 10 for
`fd` and 5 otherwise. -/
def get_periodicity (nivel dominio item : Str) : Nat :=
  let table : Option (List (Str × Nat)) :=
    if nivel = "L1b".toList then
      (if dominio = "fd".toList then some PERIODICITY_L1b_fd
       else if dominio = "conus".toList then some PERIODICITY_L1b_conus
       else none)
    else if nivel = "L2".toList then
      (if dominio = "fd".toList then some PERIODICITY_L2_fd
       else if dominio = "conus".toList then some PERIODICITY_L2_conus
       else none)
    else none
  match table.bind (fun t => lookupNat t item) with
  | some p => p
  | none => if dominio = "fd".toList then 10 else 5

/-- The minute-walking counter of `estimate_file_count`: step
`minute_range` minutes from `start_minute` (wrapping at 1440) and count the
minutes the domain produces an observation. -/
def files_in_range_loop (dominio : Str) (periodicity start_minute minute_range : Nat) : Nat :=
  ((List.range minute_range).filter (fun i =>
    let actual_minute := (start_minute + i) % 1440
    if dominio = "fd".toList then decide (actual_minute % periodicity = 0)
    else if dominio = "conus".toList then
      decide (actual_minute % 10 = 1 ∨ actual_minute % 10 = 6)
    else false)).length

/-- The `items_to_process` computation of `estimate_file_count`: bands for
L1b (`ALL` expands to the 16; empty defaults to a single `C02` item); for L2
the product `CMIP` expands to one item per band (`CMIP_Cxx` for `ALL` or
missing bands), the other products are kept as themselves. -/
def items_to_process (nivel : Str) (bandas productos : List Str) : List Str :=
  if nivel = "L1b".toList then
    (if "ALL".toList ∈ bandas then VALID_BANDAS
     else if bandas ≠ [] then bandas else ["C02".toList])
  else
    (if "CMIP".toList ∈ productos then
      (if "ALL".toList ∈ bandas ∨ bandas = [] then
        (List.range 16).map (fun i => "CMIP_C".toList ++ pad2 (i + 1))
      else bandas.map (fun b => "CMIP_".toList ++ b))
    else []) ++ productos.filter (fun p => !(decide (p = "CMIP".toList)))

/-- One (day-independent) time range's file count: parse the range, compute
the wrapped minute span, and sum the per-item minute counts (items of shape
`CMIP_...` use CMIP's periodicity). -/
def count_for_horario (nivel dominio : Str) (items : List Str)
    (horario_str : Str) : Option Nat :=
  (parse_horario horario_str).map (fun p =>
    let start_minute := p.1.1 * 60 + p.1.2
    let end_minute := p.2.1 * 60 + p.2.2
    let minute_range :=
      if start_minute ≤ end_minute then end_minute - start_minute + 1
      else (1440 - start_minute) + end_minute + 1
    (items.map (fun item =>
      let lookup_item :=
        if leadsWith "CMIP_".toList item then "CMIP".toList else item
      files_in_range_loop dominio (get_periodicity nivel dominio lookup_item)
        start_minute minute_range)).sum)

/-- `SatelliteConfigGOES.estimate_file_count`: 0 for an invalid level or an
L2 request without products; otherwise the nested
date/day/range/item loops; `none` models an uncaught `ValueError` from a
range's `strptime`. -/
def estimate_file_count (nivel dominio : Str) (bandas productos : List Str)
    (fechas : List (Str × List Str)) : Option Nat :=
  if ¬(nivel = "L1b".toList ∨ nivel = "L2".toList) then some 0
  else if nivel = "L2".toList ∧ productos = [] then some 0
  else
    let items := items_to_process nivel bandas productos
    (fechas.mapM (fun (kv : Str × List Str) =>
      ((expand_fecha_key kv.1).mapM (fun _date_obj =>
        (kv.2.mapM (count_for_horario nivel dominio items)).map
          List.sum)).map List.sum)).map List.sum

end SatelliteConfigGOES

/-- The claim's per-range minute count: the number of minutes `m` in the
inclusive range `[start, end]` for which FD requires
`m % periodicity = 0` and CONUS requires `m % 10` in `{1, 6}`. -/
def countMinutesSpec (dominio : Str) (periodicity start_m end_m : Nat) : Nat :=
  ((List.range' start_m (end_m + 1 - start_m)).filter (fun m =>
    if dominio = "fd".toList then decide (m % periodicity = 0)
    else decide (m % 10 = 1 ∨ m % 10 = 6))).length

lemma strptime_HM_bounds (s : Str) (hm : Nat × Nat)
    (h : strptime_HM s = some hm) : hm.1 < 24 ∧ hm.2 < 60 := by
  unfold strptime_HM at h
  split at h
  · split at h
    · simp only [] at h
      split at h
      · rename_i hlt
        cases h
        exact hlt
      · cases h
    · cases h
  · cases h

lemma parse_horario_bounds (s : Str) (p : (Nat × Nat) × (Nat × Nat))
    (h : parse_horario s = some p) :
    p.1.1 < 24 ∧ p.1.2 < 60 ∧ p.2.1 < 24 ∧ p.2.2 < 60 := by
  simp only [parse_horario] at h
  split at h
  · cases h
  · rename_i start_t hstart
    split at h
    · split at h
      · cases h
      · rename_i end_t hend
        cases h
        obtain ⟨h1, h2⟩ := strptime_HM_bounds _ _ hstart
        obtain ⟨h3, h4⟩ := strptime_HM_bounds _ _ hend
        exact ⟨h1, h2, h3, h4⟩
    · cases h
      obtain ⟨h1, h2⟩ := strptime_HM_bounds _ _ hstart
      exact ⟨h1, h2, h1, h2⟩

lemma filter_map_length {α β : Type} (f : α → β) (q : β → Bool) (l : List α) :
    ((l.map f).filter q).length = (l.filter (fun a => q (f a))).length := by
  induction l with
  | nil => rfl
  | cons a t ih =>
    simp only [List.map_cons, List.filter_cons]
    cases hq : q (f a) <;> simp [hq, ih]

namespace SatelliteConfigGOES

lemma files_in_range_loop_eq_spec (dominio : Str)
    (hdom : dominio = "fd".toList ∨ dominio = "conus".toList)
    (p s e : Nat) (hse : s ≤ e) (he : e < 1440) :
    files_in_range_loop dominio p s (e + 1 - s) = countMinutesSpec dominio p s e := by
  unfold files_in_range_loop countMinutesSpec
  rw [List.range'_eq_map_range, filter_map_length]
  congr 1
  apply List.filter_congr
  intro i hi
  rw [List.mem_range] at hi
  have hmod : (s + i) % 1440 = s + i := Nat.mod_eq_of_lt (by omega)
  rcases hdom with h | h <;> subst h
  · rw [if_pos rfl, if_pos rfl, hmod]
  · rw [if_neg (by decide), if_pos rfl, if_neg (by decide), hmod]

end SatelliteConfigGOES

lemma mapM_eq_some_map {α β : Type} (f : α → Option β) (g : α → β) (l : List α)
    (h : ∀ a ∈ l, f a = some (g a)) : l.mapM f = some (l.map g) := by
  induction l with
  | nil => rfl
  | cons a t ih =>
    rw [List.mapM_cons, h a (List.mem_cons_self a t),
      ih (fun x hx => h x (List.mem_cons_of_mem a hx))]
    rfl

/-- The claim's per-time-range count (spec side of C8): parseable ranges
contribute, per requested item, the `countMinutesSpec` minutes of the
inclusive span; with `CMIP_`-prefixed items looked up under CMIP's
periodicity. -/
def specHorarioCount (nivel dominio : Str) (items : List Str) (h : Str) : Nat :=
  match parse_horario h with
  | some p => (items.map (fun item =>
      countMinutesSpec dominio
        (SatelliteConfigGOES.get_periodicity nivel dominio
          (if leadsWith "CMIP_".toList item then "CMIP".toList else item))
        (p.1.1 * 60 + p.1.2) (p.2.1 * 60 + p.2.2))).sum
  | none => 0

namespace SatelliteConfigGOES

lemma count_for_horario_eq (nivel dominio : Str) (items : List Str) (hs : Str)
    (hdom : dominio = "fd".toList ∨ dominio = "conus".toList)
    (p : (Nat × Nat) × (Nat × Nat)) (hp : parse_horario hs = some p)
    (hle : p.1.1 * 60 + p.1.2 ≤ p.2.1 * 60 + p.2.2) :
    count_for_horario nivel dominio items hs =
      some (specHorarioCount nivel dominio items hs) := by
  obtain ⟨hb1, hb2, hb3, hb4⟩ := parse_horario_bounds hs p hp
  have hend : p.2.1 * 60 + p.2.2 < 1440 := by omega
  simp only [count_for_horario, specHorarioCount, hp, Option.map_some']
  congr 1
  rw [if_pos hle]
  congr 1
  apply List.map_congr_left
  intro item _
  have hmr : p.2.1 * 60 + p.2.2 - (p.1.1 * 60 + p.1.2) + 1
      = p.2.1 * 60 + p.2.2 + 1 - (p.1.1 * 60 + p.1.2) := by omega
  rw [hmr]
  exact files_in_range_loop_eq_spec dominio hdom _ _ _ hle hend

end SatelliteConfigGOES

/-- C8: for a valid level and domain, and requested time ranges that all
parse with start not after end, `estimate_file_count` returns exactly the
claim's nested sum — over expanded days, time ranges and requested items,
of the number of minutes in the inclusive span at which the domain produces
an observation (FD: multiples of the item's periodicity; CONUS: minutes
ending in 1 or 6) — where a `productos` list containing CMIP with bands
ALL or missing expands to 16 `CMIP_Cxx` items under CMIP's periodicity. -/
theorem C8_estimate_file_count (nivel dominio : Str)
    (bandas productos : List Str) (fechas : List (Str × List Str))
    (hniv : nivel = "L1b".toList ∨ nivel = "L2".toList)
    (hdom : dominio = "fd".toList ∨ dominio = "conus".toList)
    (hw : ∀ kv ∈ fechas, ∀ hs ∈ kv.2, ∃ p, parse_horario hs = some p ∧
        p.1.1 * 60 + p.1.2 ≤ p.2.1 * 60 + p.2.2) :
    SatelliteConfigGOES.estimate_file_count nivel dominio bandas productos fechas =
      some ((fechas.map (fun kv =>
        ((expand_fecha_key kv.1).map (fun _ =>
          (kv.2.map (specHorarioCount nivel dominio
            (SatelliteConfigGOES.items_to_process nivel bandas productos))).sum)).sum)).sum) := by
  by_cases hL2e : nivel = "L2".toList ∧ productos = []
  · have hitems : SatelliteConfigGOES.items_to_process nivel bandas productos = [] := by
      rw [hL2e.1, hL2e.2]
      rfl
    unfold SatelliteConfigGOES.estimate_file_count
    rw [if_neg (not_not_intro hniv), if_pos hL2e]
    congr 1
    symm
    apply List.sum_eq_zero
    intro x hx
    rw [List.mem_map] at hx
    obtain ⟨kv, _, rfl⟩ := hx
    apply List.sum_eq_zero
    intro y hy
    rw [List.mem_map] at hy
    obtain ⟨d, _, rfl⟩ := hy
    apply List.sum_eq_zero
    intro z hz
    rw [List.mem_map] at hz
    obtain ⟨hs, _, rfl⟩ := hz
    simp only [specHorarioCount, hitems]
    cases parse_horario hs <;> simp
  · unfold SatelliteConfigGOES.estimate_file_count
    rw [if_neg (not_not_intro hniv), if_neg hL2e]
    have hmain : fechas.mapM (fun (kv : Str × List Str) =>
        ((expand_fecha_key kv.1).mapM (fun _ =>
          (kv.2.mapM (SatelliteConfigGOES.count_for_horario nivel dominio
            (SatelliteConfigGOES.items_to_process nivel bandas productos))).map
            List.sum)).map List.sum)
        = some (fechas.map (fun kv =>
            ((expand_fecha_key kv.1).map (fun _ =>
              (kv.2.map (specHorarioCount nivel dominio
                (SatelliteConfigGOES.items_to_process nivel bandas productos))).sum)).sum)) := by
      apply mapM_eq_some_map
      intro kv hkv
      have h2 : kv.2.mapM (SatelliteConfigGOES.count_for_horario nivel dominio
          (SatelliteConfigGOES.items_to_process nivel bandas productos))
          = some (kv.2.map (specHorarioCount nivel dominio
            (SatelliteConfigGOES.items_to_process nivel bandas productos))) := by
        apply mapM_eq_some_map
        intro hs hh
        obtain ⟨p, hp, hle⟩ := hw kv hkv hs hh
        exact SatelliteConfigGOES.count_for_horario_eq _ _ _ _ hdom p hp hle
      rw [h2]
      have h3 : (expand_fecha_key kv.1).mapM (fun _ =>
          (some (kv.2.map (specHorarioCount nivel dominio
            (SatelliteConfigGOES.items_to_process nivel bandas productos)))).map
            List.sum)
          = some ((expand_fecha_key kv.1).map (fun _ =>
            (kv.2.map (specHorarioCount nivel dominio
              (SatelliteConfigGOES.items_to_process nivel bandas productos))).sum)) :=
        mapM_eq_some_map _ _ _ (fun _ _ => rfl)
      rw [h3]
      rfl
    show (fechas.mapM (fun (kv : Str × List Str) =>
        ((expand_fecha_key kv.1).mapM (fun _ =>
          (kv.2.mapM (SatelliteConfigGOES.count_for_horario nivel dominio
            (SatelliteConfigGOES.items_to_process nivel bandas productos))).map
            List.sum)).map List.sum)).map List.sum = _
    rw [hmain]
    rfl

/-- C8 at a concrete input: an L1b full-disk day, all 16 bands, one
13:00-exclusive hour-long range; 7 ten-minute slots per band give 112. -/
theorem C8_estimate_file_count_witness :
    SatelliteConfigGOES.estimate_file_count "L1b".toList "fd".toList
      ["ALL".toList] [] [("20231026".toList, ["12:00-13:00".toList])] = some 112 :=
  (C8_estimate_file_count "L1b".toList "fd".toList ["ALL".toList] []
    [("20231026".toList, ["12:00-13:00".toList])] (Or.inl rfl) (Or.inl rfl)
    (by
      intro kv hkv hs hh
      rw [List.mem_singleton] at hkv
      subst hkv
      rw [List.mem_singleton] at hh
      subst hh
      exact ⟨((12, 0), (13, 0)), by decide, by decide⟩)).trans (by decide)
